import Mathlib

/-!
Verification development for the ai-financial-news data pipeline.

The repository is a TypeScript dashboard that fetches news feeds, asks a
hosted language model for summaries / calendars / analyses and forwards a
digest to a chat webhook.  We shallowly embed the pieces of the pipeline
with real sequencing and error-handling logic:

* strings are `List Char` (`Str`) so that the character-level operations
  performed by the code (trim, HTML-tag stripping, code-fence stripping,
  truncation) are modelled exactly;
* outcomes of outbound HTTP / model calls are inputs ("oracle" values):
  every `fetch` result and every model response text is a parameter, and
  `JSON.parse` composed with the coercion of the parsed JS value into the
  expected record shape is a parameter function per shape;
* a thrown JS exception is `Thrown` (an `Error` with a message, or some
  other thrown value), and fallible code returns `Except Thrown _`;
* effect counting (how many model calls / webhook posts a handler issues)
  is part of each embedded function's result.
-/

namespace AiFin

/-- Strings are modelled as lists of characters. -/
abbrev Str := List Char

/-- Shorthand conversion from a Lean string literal. -/
def lit (s : String) : Str := s.toList

/-- A thrown JS value: either an `Error` carrying a message, or any other
thrown value (`e instanceof Error` is false). -/
inductive Thrown where
  | err (msg : Str)
  | value
deriving DecidableEq, Repr

/-- Models `e instanceof Error ? e.message : <default>`. -/
def thrownMessage (default : Str) : Thrown → Str
  | .err m => m
  | .value => default

/-- The character set removed by JS `String.prototype.trim`
(ECMAScript WhiteSpace and LineTerminator code points). -/
def jsWs (c : Char) : Bool :=
  let n := c.toNat
  n = 0x9 || n = 0xA || n = 0xB || n = 0xC || n = 0xD || n = 0x20 ||
  n = 0xA0 || n = 0x1680 || (0x2000 ≤ n && n ≤ 0x200A) || n = 0x2028 ||
  n = 0x2029 || n = 0x202F || n = 0x205F || n = 0x3000 || n = 0xFEFF

/-- Models JS `s.trim()`: drop whitespace from both ends. -/
def trimJs (l : Str) : Str :=
  ((l.dropWhile jsWs).reverse.dropWhile jsWs).reverse

/-- JS truthiness of a possibly-absent string (`undefined`, `null` and `""`
are falsy). -/
def jsTruthy : Option Str → Bool
  | none => false
  | some s => !s.isEmpty

/-- The backtick character (code point 96). -/
def bq : Char := Char.ofNat 96

/-- The three-character code fence. -/
def fence3 : Str := [bq, bq, bq]

/-- The seven-character opening fence with language tag. -/
def fenceJson : Str := fence3 ++ ['j', 's', 'o', 'n']

/-- Fueled scan for `stripFences` (fuel makes the recursion structural so
that concrete instances compute in the kernel; with fuel at least the
length of the list the fuel never runs out). -/
def stripFencesAux : Nat → Str → Str
  | 0, _ => []
  | _, [] => []
  | fuel + 1, c :: cs =>
    if (c :: cs).take 7 = fenceJson then stripFencesAux fuel ((c :: cs).drop 7)
    else if (c :: cs).take 3 = fence3 then stripFencesAux fuel ((c :: cs).drop 3)
    else c :: stripFencesAux fuel cs

/-- Models the global regex replacement `.replace(/```json|```/g, "")`:
scan left to right, removing each leftmost occurrence, preferring the
longer alternative at a given position (regex alternation order). -/
def stripFences (l : Str) : Str := stripFencesAux l.length l

theorem stripFencesAux_fuel (f₁ : Nat) :
    ∀ (f₂ : Nat) (l : Str), l.length ≤ f₁ → l.length ≤ f₂ →
    stripFencesAux f₁ l = stripFencesAux f₂ l := by
  induction f₁ with
  | zero =>
    intro f₂ l h₁ _
    have : l = [] := List.length_eq_zero.mp (Nat.le_zero.mp h₁)
    subst this
    cases f₂ <;> rfl
  | succ g ih =>
    intro f₂ l h₁ h₂
    cases l with
    | nil => cases f₂ <;> rfl
    | cons c cs =>
      cases f₂ with
      | zero => simp at h₂
      | succ h =>
        simp only [stripFencesAux]
        split
        · apply ih
          · simp only [List.length_drop, List.length_cons] at *; omega
          · simp only [List.length_drop, List.length_cons] at *; omega
        · split
          · apply ih
            · simp only [List.length_drop, List.length_cons] at *; omega
            · simp only [List.length_drop, List.length_cons] at *; omega
          · have := ih h cs (by simp at h₁; omega) (by simp at h₂; omega)
            rw [this]

/-- Unfolding equation for `stripFences` on a cons cell. -/
theorem stripFences_cons (c : Char) (cs : Str) :
    stripFences (c :: cs) =
      if (c :: cs).take 7 = fenceJson then stripFences ((c :: cs).drop 7)
      else if (c :: cs).take 3 = fence3 then stripFences ((c :: cs).drop 3)
      else c :: stripFences cs := by
  show stripFencesAux (cs.length + 1) (c :: cs) = _
  simp only [stripFencesAux]
  split
  · exact stripFencesAux_fuel _ _ _
      (by simp only [List.length_drop, List.length_cons]; omega)
      (by simp only [List.length_drop, List.length_cons]; omega)
  · split
    · exact stripFencesAux_fuel _ _ _
        (by simp only [List.length_drop, List.length_cons]; omega)
        (by simp only [List.length_drop, List.length_cons]; omega)
    · rfl

theorem stripFences_nil : stripFences [] = [] := rfl

/-- Models `response.text.trim().replace(/```json|```/g, "")`, the cleanup
applied to model output before `JSON.parse` in `getTrumpTracker` and
`getCryptoTechnicalAnalysis`. -/
def cleanModelText (s : Str) : Str := stripFences (trimJs s)

/-- Whether the string contains a triple-backtick run. -/
def containsFence : Str → Bool
  | [] => false
  | c :: cs => ((c :: cs).take 3 = fence3 : Bool) || containsFence cs

/-- Skip to just past the next `>` (or to the end): the remainder of the
regex match `<[^>]*>?` after its initial `<`. -/
def dropTag : Str → Str
  | [] => []
  | c :: cs => if c = '>' then cs else dropTag cs

/-- Fueled scan for `stripTags` (structural recursion on the fuel). -/
def stripTagsAux : Nat → Str → Str
  | 0, _ => []
  | _, [] => []
  | fuel + 1, c :: cs =>
    if c = '<' then stripTagsAux fuel (dropTag cs) else c :: stripTagsAux fuel cs

/-- Models `.replace(/<[^>]*>?/gm, '')`: remove every `<`-initiated run up
to and including the next `>` (or to the end of the string). -/
def stripTags (l : Str) : Str := stripTagsAux l.length l

/-! ### Lexicographic string order and positional values

Used to state the calendar ordering claim: for fixed-format ISO date and
time strings, lexicographic character order coincides with chronological
order, which we capture through a positional base-128 value. -/

/-- Strict lexicographic order on strings (by code point). -/
def strLt : Str → Str → Bool
  | [], [] => false
  | [], _ :: _ => true
  | _ :: _, [] => false
  | a :: as, b :: bs => decide (a.toNat < b.toNat) || (decide (a = b) && strLt as bs)

/-- Non-strict lexicographic order on strings. -/
def strLe (a b : Str) : Bool := strLt a b || decide (a = b)

/-- Positional base-128 value of a string of ASCII characters. -/
def strVal : Str → Nat
  | [] => 0
  | c :: cs => c.toNat * 128 ^ cs.length + strVal cs

/-- All characters are ASCII (code point below 128). -/
def allAscii (l : Str) : Bool := l.all (fun c => c.toNat < 128)

theorem strVal_lt_pow (l : Str) (h : allAscii l = true) :
    strVal l < 128 ^ l.length := by
  induction l with
  | nil => simp [strVal]
  | cons c cs ih =>
    simp only [allAscii, List.all_cons, Bool.and_eq_true, decide_eq_true_eq] at h
    have hcs : strVal cs < 128 ^ cs.length := ih (by simp [allAscii, h.2])
    have hc : c.toNat < 128 := h.1
    simp only [strVal, List.length_cons, pow_succ]
    calc c.toNat * 128 ^ cs.length + strVal cs
        < c.toNat * 128 ^ cs.length + 128 ^ cs.length := by omega
      _ = (c.toNat + 1) * 128 ^ cs.length := by ring
      _ ≤ 128 * 128 ^ cs.length := by
          have : c.toNat + 1 ≤ 128 := hc
          exact Nat.mul_le_mul_right _ this
      _ = 128 ^ cs.length * 128 := by ring

theorem char_toNat_inj {a b : Char} (h : a.toNat = b.toNat) : a = b := by
  have : Char.ofNat a.toNat = Char.ofNat b.toNat := by rw [h]
  simpa using this

theorem strLt_iff_strVal_lt (a b : Str) (ha : allAscii a = true)
    (hb : allAscii b = true) (hlen : a.length = b.length) :
    strLt a b = true ↔ strVal a < strVal b := by
  induction a generalizing b with
  | nil =>
    cases b with
    | nil => simp [strLt, strVal]
    | cons y ys => simp at hlen
  | cons x xs ih =>
    cases b with
    | nil => simp at hlen
    | cons y ys =>
      simp only [allAscii, List.all_cons, Bool.and_eq_true, decide_eq_true_eq] at ha hb
      have hlen2 : xs.length = ys.length := by simpa using hlen
      have hxs : strVal xs < 128 ^ xs.length := strVal_lt_pow xs (by simp [allAscii, ha.2])
      have hys : strVal ys < 128 ^ ys.length := strVal_lt_pow ys (by simp [allAscii, hb.2])
      simp only [strLt, strVal, Bool.or_eq_true, Bool.and_eq_true, decide_eq_true_eq, hlen2]
      constructor
      · rintro (hlt | ⟨heq, hrec⟩)
        · have : x.toNat + 1 ≤ y.toNat := hlt
          calc x.toNat * 128 ^ ys.length + strVal xs
              < x.toNat * 128 ^ ys.length + 128 ^ ys.length := by
                rw [← hlen2]; omega
            _ = (x.toNat + 1) * 128 ^ ys.length := by ring
            _ ≤ y.toNat * 128 ^ ys.length := Nat.mul_le_mul_right _ this
            _ ≤ y.toNat * 128 ^ ys.length + strVal ys := Nat.le_add_right _ _
        · subst heq
          have := (ih ys (by simp [allAscii, ha.2]) (by simp [allAscii, hb.2]) hlen2).mp hrec
          omega
      · intro hval
        by_cases hxy : x.toNat < y.toNat
        · exact Or.inl hxy
        · have hge : y.toNat ≤ x.toNat := Nat.le_of_not_lt hxy
          have heq : x.toNat = y.toNat := by
            by_contra hne
            have hstrict : y.toNat + 1 ≤ x.toNat := by omega
            have : y.toNat * 128 ^ ys.length + strVal ys
                 < x.toNat * 128 ^ ys.length + strVal xs := by
              calc y.toNat * 128 ^ ys.length + strVal ys
                  < y.toNat * 128 ^ ys.length + 128 ^ ys.length := by omega
                _ = (y.toNat + 1) * 128 ^ ys.length := by ring
                _ ≤ x.toNat * 128 ^ ys.length := Nat.mul_le_mul_right _ hstrict
                _ ≤ x.toNat * 128 ^ ys.length + strVal xs := Nat.le_add_right _ _
            omega
          have hxeqy : x = y := char_toNat_inj heq
          subst hxeqy
          refine Or.inr ⟨rfl, ?_⟩
          have hv : strVal xs < strVal ys := by omega
          exact (ih ys (by simp [allAscii, ha.2]) (by simp [allAscii, hb.2]) hlen2).mpr hv

theorem strLt_trichotomy (a b : Str) :
    strLt a b = true ∨ a = b ∨ strLt b a = true := by
  induction a generalizing b with
  | nil =>
    cases b with
    | nil => simp [strLt]
    | cons y ys => simp [strLt]
  | cons x xs ih =>
    cases b with
    | nil => simp [strLt]
    | cons y ys =>
      simp only [strLt, Bool.or_eq_true, Bool.and_eq_true, decide_eq_true_eq]
      rcases Nat.lt_trichotomy x.toNat y.toNat with h | h | h
      · exact Or.inl (Or.inl h)
      · have hxy : x = y := char_toNat_inj h
        subst hxy
        rcases ih ys with hr | hr | hr
        · exact Or.inl (Or.inr ⟨rfl, hr⟩)
        · exact Or.inr (Or.inl (by rw [hr]))
        · exact Or.inr (Or.inr (Or.inr ⟨rfl, hr⟩))
      · exact Or.inr (Or.inr (Or.inl h))

theorem strLe_iff_strVal_le (a b : Str) (ha : allAscii a = true)
    (hb : allAscii b = true) (hlen : a.length = b.length) :
    strLe a b = true ↔ strVal a ≤ strVal b := by
  simp only [strLe, Bool.or_eq_true, decide_eq_true_eq]
  constructor
  · rintro (hlt | heq)
    · exact Nat.le_of_lt ((strLt_iff_strVal_lt a b ha hb hlen).mp hlt)
    · subst heq; exact Nat.le_refl _
  · intro hle
    rcases Nat.lt_or_ge (strVal a) (strVal b) with hlt | hge
    · exact Or.inl ((strLt_iff_strVal_lt a b ha hb hlen).mpr hlt)
    · have heqv : strVal a = strVal b := Nat.le_antisymm hle hge
      by_cases heq : a = b
      · exact Or.inr heq
      · exfalso
        rcases strLt_trichotomy a b with h | h | h
        · have := (strLt_iff_strVal_lt a b ha hb hlen).mp h; omega
        · exact heq h
        · have := (strLt_iff_strVal_lt b a hb ha hlen.symm).mp h; omega

/-! ### The calendar data model -/

/-- A parsed economic-calendar event (`{date, time, country, eventName,
importance}` in the TypeScript code). -/
structure CalendarEvent where
  date : Str
  time : Str
  country : Str
  eventName : Str
  importance : Str
deriving DecidableEq, Repr

/-- Numeric value of a decimal digit character. -/
def digitVal (c : Char) : Nat := c.toNat - 48

/-- Decimal digit character. -/
def isDig (c : Char) : Bool := 48 ≤ c.toNat && c.toNat ≤ 57

/-- Whether the year is a leap year (Gregorian rule). -/
def isLeap (y : Nat) : Bool := (y % 4 = 0 && y % 100 ≠ 0) || y % 400 = 0

/-- Number of days in a month. -/
def daysInMonth (y m : Nat) : Nat :=
  if m = 2 then (if isLeap y then 29 else 28)
  else if m = 4 || m = 6 || m = 9 || m = 11 then 30
  else 31

/-- A well-formed `YYYY-MM-DD` calendar date (the format requested from the
model; exactly these strings are parsed by `new Date` as ISO dates and
their lexicographic order is chronological). -/
def validDate : Str → Bool
  | [y1, y2, y3, y4, s1, m1, m2, s2, d1, d2] =>
    isDig y1 && isDig y2 && isDig y3 && isDig y4 &&
    isDig m1 && isDig m2 && isDig d1 && isDig d2 &&
    s1 = '-' && s2 = '-' &&
    (let y := ((digitVal y1 * 10 + digitVal y2) * 10 + digitVal y3) * 10 + digitVal y4
     let m := digitVal m1 * 10 + digitVal m2
     let d := digitVal d1 * 10 + digitVal d2
     1 ≤ m && m ≤ 12 && 1 ≤ d && d ≤ daysInMonth y m)
  | _ => false

/-- A well-formed `HH:MM` 24-hour time. -/
def validTime : Str → Bool
  | [h1, h2, s, m1, m2] =>
    isDig h1 && isDig h2 && isDig m1 && isDig m2 && s = ':' &&
    digitVal h1 * 10 + digitVal h2 ≤ 23 && digitVal m1 * 10 + digitVal m2 ≤ 59
  | _ => false

/-- Models the template `${a.time || '00:00'}` in the sort comparator: an
empty (falsy) time string defaults to midnight. -/
def timeOrDefault (t : Str) : Str := if t.isEmpty then lit "00:00" else t

/-- Chronological sort key of an event, as computed by the comparator
`new Date(`$\{a.date}T$\{a.time || '00:00'}`).getTime()`.  For well-formed
ISO strings the timestamp is strictly monotone in the (date, time) digit
strings, so any order-isomorphic key models the comparator; we use the
positional base-128 value of the two strings.  A string outside the
well-formed ISO shape yields `none`, modelling an invalid date (`NaN`). -/
def calKey (e : CalendarEvent) : Option Nat :=
  if validDate e.date && validTime (timeOrDefault e.time) then
    some (strVal e.date * 128 ^ 5 + strVal (timeOrDefault e.time))
  else none

/-- The comparator `dateA.getTime() - dateB.getTime()` is negative; per the
ECMAScript sort specification a `NaN` comparator value is treated as `0`,
so comparisons involving an invalid date never count as "less". -/
def calLt (a b : CalendarEvent) : Bool :=
  match calKey a, calKey b with
  | some x, some y => decide (x < y)
  | _, _ => false

/-- Non-strict variant of the comparator order used to state sortedness. -/
def calLe (a b : CalendarEvent) : Bool :=
  match calKey a, calKey b with
  | some x, some y => decide (x ≤ y)
  | _, _ => true

/-- Stable insertion of an event into an already-processed list: the new
element goes after every element it does not strictly precede, matching the
stability guarantee of `Array.prototype.sort`. -/
def insertEv (a : CalendarEvent) : List CalendarEvent → List CalendarEvent
  | [] => [a]
  | b :: bs => if calLt a b then a :: b :: bs else b :: insertEv a bs

/-- Deterministic stable sort modelling `events.sort(comparator)`. -/
def sortCal (l : List CalendarEvent) : List CalendarEvent :=
  l.foldl (fun acc e => insertEv e acc) []

/-- The defensive post-processing of `getFinancialCalendar` in
`runScheduledPush.ts` (and the identical copy in the latest
`getDashboardData.ts` variant): `events.filter(e => e.importance === 'High')`
followed by the chronological sort. -/
def processCalendarPush (events : List CalendarEvent) : List CalendarEvent :=
  sortCal (events.filter (fun e => e.importance = lit "High"))

theorem mem_insertEv {a e : CalendarEvent} {l : List CalendarEvent} :
    e ∈ insertEv a l ↔ e = a ∨ e ∈ l := by
  induction l with
  | nil => simp [insertEv]
  | cons b bs ih =>
    simp only [insertEv]
    split
    · simp
    · simp only [List.mem_cons, ih]
      tauto

theorem mem_sortCal {e : CalendarEvent} {l : List CalendarEvent} :
    e ∈ sortCal l ↔ e ∈ l := by
  suffices h : ∀ acc, e ∈ l.foldl (fun acc e => insertEv e acc) acc ↔ e ∈ l ∨ e ∈ acc by
    simpa [sortCal] using h []
  induction l with
  | nil => intro acc; simp
  | cons b bs ih =>
    intro acc
    simp only [List.foldl_cons, ih, mem_insertEv, List.mem_cons]
    tauto

theorem calLe_total_of_valid {a b : CalendarEvent}
    (hnot : calLt a b = false) : calLe b a = true := by
  unfold calLt at hnot
  unfold calLe
  cases ha : calKey a with
  | none => simp
  | some x =>
    cases hbk : calKey b with
    | none => simp
    | some y =>
      rw [ha, hbk] at hnot
      simp only [decide_eq_false_iff_not, Nat.not_lt] at hnot
      simpa using hnot

theorem calLt_le {a b : CalendarEvent} (h : calLt a b = true) : calLe a b = true := by
  unfold calLt at h
  unfold calLe
  cases ha : calKey a with
  | none => simp
  | some x =>
    cases hb : calKey b with
    | none => simp
    | some y =>
      rw [ha, hb] at h
      simp only [decide_eq_true_eq] at h
      simpa using Nat.le_of_lt h

theorem calLe_trans_of_valid {a b c : CalendarEvent}
    (hb : (calKey b).isSome)
    (h1 : calLe a b = true) (h2 : calLe b c = true) : calLe a c = true := by
  unfold calLe at *
  cases ha : calKey a with
  | none => simp
  | some x =>
    cases hc : calKey c with
    | none => simp
    | some z =>
      cases hbk : calKey b with
      | none => exact absurd hb (by simp [hbk])
      | some y =>
        rw [ha, hbk] at h1
        rw [hbk, hc] at h2
        simp only [decide_eq_true_eq] at h1 h2
        simpa using Nat.le_trans h1 h2

/-- Chain-sortedness of the insertion result, assuming every involved event
has a valid key (so the comparator never produces `NaN`). -/
theorem chain_insertEv {a : CalendarEvent} {l : List CalendarEvent}
    (hval : ∀ e ∈ a :: l, (calKey e).isSome)
    (hl : List.Chain' (fun x y => calLe x y = true) l) :
    List.Chain' (fun x y => calLe x y = true) (insertEv a l) := by
  induction l with
  | nil => simp [insertEv]
  | cons b bs ih =>
    simp only [insertEv]
    split
    · rename_i hlt
      exact List.Chain'.cons (calLt_le hlt) hl
    · rename_i hnlt
      have hba : calLe b a = true :=
        calLe_total_of_valid (by simpa using hnlt)
      have hbs : List.Chain' (fun x y => calLe x y = true) bs := hl.tail
      have hrec := ih (fun e he => hval e (by
        rcases List.mem_cons.mp he with h | h
        · simp [h]
        · simp [h])) hbs
      cases hbs2 : insertEv a bs with
      | nil => simp [hbs2] at hrec ⊢
      | cons c cs =>
        rw [hbs2] at hrec
        refine List.Chain'.cons ?_ hrec
        have hc : c = a ∨ c ∈ bs := by
          have : c ∈ insertEv a bs := by rw [hbs2]; simp
          exact mem_insertEv.mp this
        rcases hc with rfl | hcbs
        · exact hba
        · cases bs with
          | nil => simp at hcbs
          | cons d ds =>
            have hbd : calLe b d = true := List.chain'_cons.mp hl |>.1
            simp only [insertEv] at hbs2
            split at hbs2
            · rename_i hlt2
              have : c = a := by
                have := hbs2
                injection this with h1 _
                exact h1.symm
              subst this
              exact hba
            · have : c = d := by injection hbs2 with h1 _; exact h1.symm
              subst this
              exact hbd

theorem chain_sortCal {l : List CalendarEvent}
    (hval : ∀ e ∈ l, (calKey e).isSome) :
    List.Chain' (fun x y => calLe x y = true) (sortCal l) := by
  suffices h : ∀ acc, (∀ e ∈ acc, (calKey e).isSome) →
      List.Chain' (fun x y => calLe x y = true) acc →
      List.Chain' (fun x y => calLe x y = true)
        (l.foldl (fun acc e => insertEv e acc) acc) by
    exact h [] (by simp) (by simp)
  induction l with
  | nil => intro acc _ hacc; simpa using hacc
  | cons b bs ih =>
    intro acc haccval hacc
    simp only [List.foldl_cons]
    have hb : (calKey b).isSome := hval b (by simp)
    have hval' : ∀ e ∈ bs, (calKey e).isSome := fun e he => hval e (by simp [he])
    refine ih hval' (insertEv b acc) ?_ ?_
    · intro e he
      rcases mem_insertEv.mp he with rfl | h
      · exact hb
      · exact haccval e h
    · exact chain_insertEv (by
        intro e he
        rcases List.mem_cons.mp he with rfl | h
        · exact hb
        · exact haccval e h) hacc

/-! ### Correspondence between the numeric key order and (date, time)
lexicographic order, for well-formed events -/

/-- Composite (date, time) order: strictly earlier date, or same date and
time not later.  The comparator's default of `'00:00'` for an empty time is
part of the key. -/
def dtLe (a b : CalendarEvent) : Bool :=
  strLt a.date b.date ||
  (decide (a.date = b.date) && strLe (timeOrDefault a.time) (timeOrDefault b.time))

theorem validDate_shape {s : Str} (h : validDate s = true) :
    allAscii s = true ∧ s.length = 10 := by
  unfold validDate at h
  split at h
  · rename_i y1 y2 y3 y4 s1 m1 m2 s2 d1 d2
    simp only [Bool.and_eq_true, decide_eq_true_eq, isDig] at h
    have hs1 : s1 = '-' := by tauto
    have hs2 : s2 = '-' := by tauto
    subst hs1; subst hs2
    refine ⟨?_, rfl⟩
    simp only [allAscii, List.all_cons, List.all_nil, Bool.and_eq_true,
      decide_eq_true_eq]
    refine ⟨?_, ?_, ?_, ?_, ?_, ?_, ?_, ?_, ?_, ?_, trivial⟩ <;>
      first | decide | omega
  · simp at h

theorem validTime_shape {s : Str} (h : validTime s = true) :
    allAscii s = true ∧ s.length = 5 := by
  unfold validTime at h
  split at h
  · rename_i h1 h2 s0 m1 m2
    simp only [Bool.and_eq_true, decide_eq_true_eq, isDig] at h
    have hs : s0 = ':' := by tauto
    subst hs
    refine ⟨?_, rfl⟩
    simp only [allAscii, List.all_cons, List.all_nil, Bool.and_eq_true,
      decide_eq_true_eq]
    refine ⟨?_, ?_, ?_, ?_, ?_, trivial⟩ <;> first | decide | omega
  · simp at h

theorem strVal_inj {a b : Str} (ha : allAscii a = true) (hb : allAscii b = true)
    (hlen : a.length = b.length) (h : strVal a = strVal b) : a = b := by
  rcases strLt_trichotomy a b with hl | he | hr
  · have := (strLt_iff_strVal_lt a b ha hb hlen).mp hl; omega
  · exact he
  · have := (strLt_iff_strVal_lt b a hb ha hlen.symm).mp hr; omega

/-- For events with well-formed date and time the comparator order
coincides with the lexicographic composite (date, time) order. -/
theorem calLe_iff_dtLe {a b : CalendarEvent}
    (hda : validDate a.date = true) (hta : validTime (timeOrDefault a.time) = true)
    (hdb : validDate b.date = true) (htb : validTime (timeOrDefault b.time) = true) :
    calLe a b = true ↔ dtLe a b = true := by
  obtain ⟨hdaA, hdaL⟩ := validDate_shape hda
  obtain ⟨htaA, htaL⟩ := validTime_shape hta
  obtain ⟨hdbA, hdbL⟩ := validDate_shape hdb
  obtain ⟨htbA, htbL⟩ := validTime_shape htb
  have hkA : calKey a = some (strVal a.date * 128 ^ 5 + strVal (timeOrDefault a.time)) := by
    unfold calKey; rw [hda, hta]; simp
  have hkB : calKey b = some (strVal b.date * 128 ^ 5 + strVal (timeOrDefault b.time)) := by
    unfold calKey; rw [hdb, htb]; simp
  have htaV : strVal (timeOrDefault a.time) < 128 ^ 5 := by
    have := strVal_lt_pow _ htaA; rwa [htaL] at this
  have htbV : strVal (timeOrDefault b.time) < 128 ^ 5 := by
    have := strVal_lt_pow _ htbA; rwa [htbL] at this
  unfold calLe dtLe
  rw [hkA, hkB]
  simp only [decide_eq_true_eq, Bool.or_eq_true, Bool.and_eq_true]
  constructor
  · intro hle
    rcases Nat.lt_trichotomy (strVal a.date) (strVal b.date) with hd | hd | hd
    · exact Or.inl ((strLt_iff_strVal_lt _ _ hdaA hdbA (by omega)).mpr hd)
    · have heq : a.date = b.date := strVal_inj hdaA hdbA (by omega) hd
      have htle : strVal (timeOrDefault a.time) ≤ strVal (timeOrDefault b.time) := by
        rw [hd] at hle; omega
      exact Or.inr ⟨by simp [heq],
        (strLe_iff_strVal_le _ _ htaA htbA (by omega)).mpr htle⟩
    · exfalso
      have : strVal b.date * 128 ^ 5 + 128 ^ 5 ≤ strVal a.date * 128 ^ 5 := by
        have : strVal b.date + 1 ≤ strVal a.date := hd
        calc strVal b.date * 128 ^ 5 + 128 ^ 5 = (strVal b.date + 1) * 128 ^ 5 := by ring
          _ ≤ strVal a.date * 128 ^ 5 := Nat.mul_le_mul_right _ this
      omega
  · rintro (hlt | ⟨heq, htle⟩)
    · have hd := (strLt_iff_strVal_lt _ _ hdaA hdbA (by omega)).mp hlt
      have : strVal a.date * 128 ^ 5 + 128 ^ 5 ≤ strVal b.date * 128 ^ 5 := by
        have h1 : strVal a.date + 1 ≤ strVal b.date := hd
        calc strVal a.date * 128 ^ 5 + 128 ^ 5 = (strVal a.date + 1) * 128 ^ 5 := by ring
          _ ≤ strVal b.date * 128 ^ 5 := Nat.mul_le_mul_right _ h1
      omega
    · have htv := (strLe_iff_strVal_le _ _ htaA htbA (by omega)).mp htle
      rw [heq]
      omega

/-! ### Feed fetching (`getNewsFromSource` and the `getNews` endpoint)

Outcomes of outbound HTTP calls are oracle inputs: the `fetch` result is a
`FeedResponse` (or a `Thrown` if the fetch itself rejected), whose `body`
field is the outcome of `response.json()` coerced to the rss2json shape. -/

/-- One raw item of an rss2json response; absent fields are `none`
(JS `item.title || 'No Title'` treats `""` as absent too, which
`jsTruthy` captures). -/
structure FeedItem where
  title : Option Str
  description : Option Str
  link : Option Str
  pubDate : Option Str
deriving DecidableEq, Repr

/-- The rss2json response body: `{status, items?, message}`. `items = none`
models an absent / null `items` field (note an empty array is present,
hence `some []`). -/
structure Rss2Json where
  status : Str
  items : Option (List FeedItem)
  message : Str
deriving DecidableEq, Repr

/-- An HTTP response from the relay: `ok` flag, numeric status, raw text
body and the outcome of `response.json()`. -/
structure FeedResponse where
  ok : Bool
  status : Nat
  text : Str
  body : Except Thrown Rss2Json
deriving Repr

/-- JS `x || d` on a possibly-absent string. -/
def orElse (x : Option Str) (d : Str) : Str :=
  match x with
  | some s => if s.isEmpty then d else s
  | none => d

/-- One formatted item block:
`Title: ..\nDescription: ..\nLink: ..\nPublishedAt: ..` with the
description tag-stripped and truncated to 500 characters. -/
def formatItem (it : FeedItem) : Str :=
  lit "Title: " ++ orElse it.title (lit "No Title") ++
  lit "\nDescription: " ++ (stripTags (orElse it.description [])).take 500 ++
  lit "\nLink: " ++ orElse it.link (lit "#") ++
  lit "\nPublishedAt: " ++ orElse it.pubDate []

/-- Models `items.slice(0, 15).map(format).join("\n\n---\n\n")`. -/
def formatFeed (items : List FeedItem) : Str :=
  List.intercalate (lit "\n\n---\n\n") ((items.take 15).map formatItem)

/-- Models `getNewsFromSource` as copied into `getDashboardData.ts`,
`runScheduledPush.ts` and `sendToDiscord.ts`: a non-ok HTTP status throws;
a body whose feed status is not `'ok'` or without an `items` array yields
the empty string; otherwise the first 15 items are formatted and joined. -/
def getNewsFromSource (resp : Except Thrown FeedResponse) : Except Thrown Str :=
  match resp with
  | .error t => .error t
  | .ok r =>
    if !r.ok then
      .error (.err (lit "Failed to fetch from rss2json. Status: " ++ lit (toString r.status)))
    else
      match r.body with
      | .error t => .error t
      | .ok j =>
        if j.status ≠ lit "ok" ∨ j.items = none then .ok []
        else .ok (formatFeed (j.items.getD []))

/-- Result of the feed-processing step of the `getNews.ts` endpoint
(rss2json branch): either an error that the surrounding catch turns into a
500 response, an immediate empty-list 200 response, or the formatted
content handed to the model. -/
inductive FeedStep where
  | errorResult (msg : Str)
  | emptyResult
  | content (s : Str)
deriving DecidableEq, Repr

/-- Models lines 47–69 of `getNews.ts` (first variant): non-ok HTTP throws;
a feed status other than `'ok'` throws `rss2json API error: ...`; absent or
empty `items` answers `[]`; otherwise the content is formatted.  The final
blank-content check (`if (!newsContent.trim())`) is included. -/
def getNewsFeedStep (resp : Except Thrown FeedResponse) : FeedStep :=
  match resp with
  | .error t => .errorResult (thrownMessage (lit "An unknown error occurred.") t)
  | .ok r =>
    if !r.ok then
      .errorResult (lit "Failed to fetch from rss2json proxy. Status: " ++
        lit (toString r.status) ++ lit ". Body: " ++ r.text)
    else
      match r.body with
      | .error t => .errorResult (thrownMessage (lit "An unknown error occurred.") t)
      | .ok j =>
        if j.status ≠ lit "ok" then
          .errorResult (lit "rss2json API error: " ++ j.message)
        else
          match j.items with
          | none => .emptyResult
          | some its =>
            if its.isEmpty then .emptyResult
            else
              let newsContent := formatFeed its
              if (trimJs newsContent).isEmpty then .emptyResult
              else .content newsContent

/-! ### The summarizer (`analyzeNews`) -/

/-- A summarized news article (`{eventName, summary, importance, link}`). -/
structure NewsArticle where
  eventName : Str
  summary : Str
  importance : Str
  link : Str
deriving DecidableEq, Repr

/-- Models `analyzeNews`: blank input short-circuits to `[]` with no model
call; otherwise one `generateContent` call is issued and its trimmed text
is JSON-parsed (parse failures propagate — there is no catch).  The second
component counts issued model calls. -/
def analyzeNews (callText : Except Thrown Str)
    (parseNews : Str → Except Thrown (List NewsArticle))
    (newsContent : Str) : Except Thrown (List NewsArticle) × Nat :=
  if (trimJs newsContent).isEmpty then (.ok [], 0)
  else
    match callText with
    | .error t => (.error t, 1)
    | .ok text => (parseNews (trimJs text), 1)

/-! ### Calendar fetchers -/

/-- Outcome of `JSON.parse` for a calendar response: an array of events, or
some non-array JS value (an object; strings are out of modelled scope since
`calendar?.length` would then be numeric). -/
inductive CalParse where
  | arr (events : List CalendarEvent)
  | notArray
deriving DecidableEq, Repr

/-- Models `getFinancialCalendar` of `runScheduledPush.ts` lines 38–67 (and
the identical copy in the latest `getDashboardData.ts` variant): one model
call; on success the parsed array is re-filtered to High importance and
sorted chronologically; any exception degrades to `[]`. -/
def getFinancialCalendarPush (callText : Except Thrown Str)
    (parseCal : Str → Except Thrown CalParse) : CalParse × Nat :=
  (match callText with
   | .error _ => .arr []
   | .ok text =>
     match parseCal (trimJs text) with
     | .error _ => .arr []
     | .ok .notArray => .notArray
     | .ok (.arr events) => .arr (processCalendarPush events), 1)

/-- Models `getFinancialCalendar` of `sendToDiscord.ts` lines 92–102: one
model call, the parsed value returned as-is — no defensive filter and no
sort; any exception degrades to `[]`. -/
def getFinancialCalendarDiscord (callText : Except Thrown Str)
    (parseCal : Str → Except Thrown CalParse) : CalParse × Nat :=
  (match callText with
   | .error _ => .arr []
   | .ok text =>
     match parseCal (trimJs text) with
     | .error _ => .arr []
     | .ok .notArray => .notArray
     | .ok (.arr events) => .arr events, 1)

/-- Parsed result of the combined news-and-calendar model call. -/
structure ComboData where
  financialNews : List NewsArticle
  cryptoNews : List NewsArticle
  calendar : CalParse
deriving DecidableEq, Repr

/-- Sorted view of the combined result's calendar: the code sorts
`data.calendar` in place when it is an array and leaves it untouched
otherwise.  No High-importance re-filter is applied. -/
def sortComboCalendar : CalParse → CalParse
  | .arr l => .arr (sortCal l)
  | .notArray => .notArray

/-- Models `getNewsAndCalendarAnalysis` of `getDashboardData.ts` lines
20–58 and the `getNewsAndCalendarAnalysisForPush` copy in
`runScheduledPush.ts` (the run type only changes prompt wording): exactly
one model call is always issued — there is no blank-input guard — and the
parsed combined object is returned with its calendar sorted; parse and
network errors propagate to the caller. -/
def getNewsAndCalendarAnalysis (callText : Except Thrown Str)
    (parseCombo : Str → Except Thrown ComboData)
    (financialNewsContent cryptoNewsContent : Str) :
    Except Thrown ComboData × Nat :=
  (match callText with
   | .error t => .error t
   | .ok text =>
     match parseCombo (trimJs text) with
     | .error t => .error t
     | .ok d => .ok { d with calendar := sortComboCalendar d.calendar }, 1)

/-! ### Figure tracker and crypto analyst -/

/-- A schedule entry of the figure tracker. -/
structure TrumpSchedule where
  date : Str
  time : Str
  eventDescription : Str
deriving DecidableEq, Repr

/-- The figure's most recent notable post. -/
structure TrumpPost where
  postContent : Str
  url : Str
deriving DecidableEq, Repr

/-- The tracker result handed to the digest/UI layer. -/
structure TrumpTracker where
  schedule : List TrumpSchedule
  topPost : TrumpPost
deriving DecidableEq, Repr

/-- Parsed JSON of the tracker model call; `none` models an absent or falsy
field that the code replaces by its empty default. -/
structure TrackerParsed where
  schedule : Option (List TrumpSchedule)
  topPost : Option TrumpPost
deriving DecidableEq, Repr

/-- Models the combined `getTrumpTracker` (in `getDashboardData.ts` and
`runScheduledPush.ts`): one model call; the text is trimmed and
fence-stripped, parsed, and the two fields defaulted; any exception
degrades to the fully empty tracker. -/
def getTrumpTracker (callText : Except Thrown Str)
    (parseTracker : Str → Except Thrown TrackerParsed) : TrumpTracker × Nat :=
  (match callText with
   | .error _ => ⟨[], ⟨[], []⟩⟩
   | .ok text =>
     match parseTracker (cleanModelText text) with
     | .error _ => ⟨[], ⟨[], []⟩⟩
     | .ok p => ⟨p.schedule.getD [], p.topPost.getD ⟨[], []⟩⟩, 1)

/-- Parsed JSON of a crypto-analysis model call; each field is absent
(`none`) or a string (empty strings are falsy for the validation check). -/
structure CryptoParsed where
  dataSource : Option Str
  marketStructure : Option Str
  bullishScenario : Option Str
  bearishScenario : Option Str
deriving DecidableEq, Repr

/-- What `getCryptoTechnicalAnalysis` returns: the parsed analysis, or the
degraded `{error: true, message}` object. -/
inductive CryptoResult where
  | data (d : CryptoParsed)
  | failure (message : Str)
deriving DecidableEq, Repr

/-- The fixed failure message of the `runScheduledPush.ts` variant:
`無法生成 ${coin.ticker} 分析報告`. -/
def pushCryptoMsg (ticker : Str) : Str :=
  lit "無法生成 " ++ ticker ++ lit " 分析報告"

/-- The default failure message of the `getDashboardData.ts` variant
(used when the thrown value is not an `Error`):
`無法生成 ${coin.ticker} 分析報告。`. -/
def dashCryptoMsg (ticker : Str) : Str :=
  lit "無法生成 " ++ ticker ++ lit " 分析報告。"

/-- The message of the validation throw in `getDashboardData.ts`. -/
def missingFieldsMsg (ticker : Str) : Str :=
  lit "Parsed data from Gemini is missing required fields for " ++ ticker ++ lit "."

/-- The message of the validation throw in `runScheduledPush.ts`. -/
def missingFieldsMsgPush (ticker : Str) : Str :=
  lit "Parsed data from Gemini is missing required fields for " ++ ticker ++
  lit " analysis."

/-- Models `getCryptoTechnicalAnalysis` of `runScheduledPush.ts` lines
311–335: one model call; the cleaned text is parsed; a parsed object whose
`marketStructure` or `bullishScenario` is absent or empty throws; every
exception is caught and degrades to `{error: true, message}` with the fixed
per-ticker message. -/
def getCryptoTechnicalAnalysisPush (callText : Except Thrown Str)
    (parseCrypto : Str → Except Thrown CryptoParsed)
    (ticker : Str) : CryptoResult × Nat :=
  (match callText with
   | .error _ => .failure (pushCryptoMsg ticker)
   | .ok text =>
     match parseCrypto (cleanModelText text) with
     | .error _ => .failure (pushCryptoMsg ticker)
     | .ok p =>
       if jsTruthy p.marketStructure && jsTruthy p.bullishScenario then .data p
       else .failure (pushCryptoMsg ticker), 1)

/-- Models `getCryptoTechnicalAnalysis` of `getDashboardData.ts` lines
96–134: identical control flow, but the catch uses the thrown `Error`'s own
message (falling back to the fixed message for non-`Error` values). -/
def getCryptoTechnicalAnalysisDash (callText : Except Thrown Str)
    (parseCrypto : Str → Except Thrown CryptoParsed)
    (ticker : Str) : CryptoResult × Nat :=
  (match callText with
   | .error t => .failure (thrownMessage (dashCryptoMsg ticker) t)
   | .ok text =>
     match parseCrypto (cleanModelText text) with
     | .error t => .failure (thrownMessage (dashCryptoMsg ticker) t)
     | .ok p =>
       if jsTruthy p.marketStructure && jsTruthy p.bullishScenario then .data p
       else .failure (missingFieldsMsg ticker), 1)

/-! ### Digest formatting (`sendComprehensiveDiscordMessage` and the UI's
`handleSendToDiscord`) -/

/-- One rich-embed field. -/
structure EmbedField where
  name : Str
  value : Str
  inlineFlag : Bool
deriving DecidableEq, Repr

/-- A Discord embed section. -/
structure Embed where
  title : Str
  color : Nat
  description : Option Str
  fields : List EmbedField
  footer : Option Str
  timestamp : Option Str
deriving DecidableEq, Repr

/-- Models `getCountryFlag`: country code to flag emoji, defaulting to the white
flag. -/
def getCountryFlag (code : Str) : Str :=
  let c := code.map Char.toUpper
  if c = lit "US" then lit "🇺🇸" else if c = lit "CN" then lit "🇨🇳"
  else if c = lit "JP" then lit "🇯🇵" else if c = lit "DE" then lit "🇩🇪"
  else if c = lit "GB" then lit "🇬🇧" else if c = lit "EU" then lit "🇪🇺"
  else if c = lit "FR" then lit "🇫🇷" else if c = lit "IT" then lit "🇮🇹"
  else if c = lit "CA" then lit "🇨🇦" else if c = lit "AU" then lit "🇦🇺"
  else if c = lit "NZ" then lit "🇳🇿" else if c = lit "CH" then lit "🇨🇭"
  else lit "🏳️"

/-- Models `getImportanceEmoji`. -/
def getImportanceEmoji (imp : Str) : Str :=
  if imp = lit "High" then lit "🔥"
  else if imp = lit "Medium" then lit "⚠️"
  else if imp = lit "Low" then lit "✅"
  else []

/-- One news line of a digest description. -/
def newsLine (a : NewsArticle) : Str :=
  lit "> **[" ++ a.eventName ++ lit "](" ++ a.link ++ lit ")** (" ++
  a.importance ++ lit ")\n> " ++ a.summary

/-- The financial / crypto news embed description. -/
def newsDescription (articles : List NewsArticle) : Str :=
  List.intercalate (lit "\n\n") (articles.map newsLine)

/-- One calendar line of the digest (`e.date.substring(5)` drops `YYYY-`). -/
def calendarLine (e : CalendarEvent) : Str :=
  lit "> **" ++ e.date.drop 5 ++ lit " " ++ e.time ++ lit "** " ++
  getCountryFlag e.country ++ lit " " ++ e.eventName ++ lit " (" ++
  getImportanceEmoji e.importance ++ lit " " ++ e.importance ++ lit ")"

/-- The calendar embed description (`calendar.slice(0, 10)`). -/
def calendarDescription (events : List CalendarEvent) : Str :=
  List.intercalate (lit "\n") ((events.take 10).map calendarLine)

/-- The schedule field value of the figure-tracker embed. -/
def scheduleValue (items : List TrumpSchedule) : Str :=
  List.intercalate (lit "\n") (items.map (fun i =>
    lit "> - **" ++ i.date.drop 5 ++ lit " " ++ i.time ++ lit ":** " ++
    i.eventDescription))

/-- The top-post field value of the figure-tracker embed. -/
def topPostValue (p : TrumpPost) : Str :=
  lit "> [原文連結](" ++ p.url ++ lit ")\n> \"" ++ p.postContent ++ lit "\""

/-- The figure-tracker embed of the scheduled push: zero, one or two fields
depending on which parts are non-empty; no embed at all when both are
empty. -/
def trumpEmbeds (t : TrumpTracker) : List Embed :=
  let fields :=
    (if t.schedule.isEmpty then [] else
      [⟨lit "🎤 行程與演講", scheduleValue t.schedule, false⟩]) ++
    (if t.topPost.postContent.isEmpty then [] else
      [⟨lit "💬 Truth Social 最新貼文", topPostValue t.topPost, false⟩])
  if fields.isEmpty then []
  else [{ title := lit "🦅 川普動態", color := 15105570, description := none,
          fields := fields, footer := none, timestamp := none }]

/-- The four sections shared by both `sendComprehensiveDiscordMessage`
variants: financial news, crypto news, calendar (only when the parsed
calendar is a non-empty array), figure tracker. -/
def baseEmbeds (fin cry : List NewsArticle) (cal : CalParse)
    (tr : Option TrumpTracker) : List Embed :=
  (if fin.isEmpty then [] else
    [{ title := lit "📰 主要財經新聞", color := 3447003,
       description := some (newsDescription fin), fields := [],
       footer := none, timestamp := none }]) ++
  (if cry.isEmpty then [] else
    [{ title := lit "📈 加密貨幣新聞", color := 15844367,
       description := some (newsDescription cry), fields := [],
       footer := none, timestamp := none }]) ++
  (match cal with
   | .arr l =>
     if l.isEmpty then [] else
       [{ title := lit "🗓️ 本週重要財經日曆 (High)", color := 5763719,
          description := some (calendarDescription l), fields := [],
          footer := none, timestamp := none }]
   | .notArray => []) ++
  (match tr with
   | none => []
   | some t => trumpEmbeds t)

/-- The per-coin embed of the push digest (`createCryptoEmbed`): `null` for
an error-flagged analysis; otherwise fields for each truthy narrative
piece, and `null` when no field survives. -/
def createCryptoEmbedPush (r : CryptoResult) (name : Str) : Option Embed :=
  match r with
  | .failure _ => none
  | .data p =>
    let fields :=
      (if jsTruthy p.marketStructure then
        [⟨lit "市場結構", lit "> " ++ p.marketStructure.getD [], false⟩] else []) ++
      (if jsTruthy p.bullishScenario then
        [⟨lit "🐂 看漲劇本", lit "> " ++ p.bullishScenario.getD [], false⟩] else []) ++
      (if jsTruthy p.bearishScenario then
        [⟨lit "🐻 看跌劇本", lit "> " ++ p.bearishScenario.getD [], false⟩] else [])
    if fields.isEmpty then none
    else some
      { title := lit "📈 " ++ name ++ lit " 技術分析",
        color := if name = lit "ETH" then 6250495 else 16098048,
        description := some (lit "**數據來源:** " ++ orElse p.dataSource (lit "AI 綜合分析")),
        fields := fields, footer := none, timestamp := none }

/-- List view of an optional embed. -/
def optEmbed : Option Embed → List Embed
  | none => []
  | some e => [e]

/-- The crypto pair of the second push variant. -/
structure CryptoPair where
  eth : CryptoResult
  btc : CryptoResult
deriving DecidableEq, Repr

/-- Embed list of `sendComprehensiveDiscordMessage` in the first
`runScheduledPush.ts` variant (lines 110–163): news, calendar, tracker. -/
def buildEmbeds1 (fin cry : List NewsArticle) (cal : CalParse)
    (tr : Option TrumpTracker) : List Embed :=
  baseEmbeds fin cry cal tr

/-- Embed list of `sendComprehensiveDiscordMessage` in the second
`runScheduledPush.ts` variant (lines 337–417): the shared four sections
plus BTC then ETH analyses. -/
def buildEmbeds2 (fin cry : List NewsArticle) (cal : CalParse)
    (tr : Option TrumpTracker) (ca : Option CryptoPair) : List Embed :=
  baseEmbeds fin cry cal tr ++
  (match ca with
   | none => []
   | some pair =>
     optEmbed (createCryptoEmbedPush pair.btc (lit "BTC")) ++
     optEmbed (createCryptoEmbedPush pair.eth (lit "ETH")))

/-- Models the in-place footer stamping
`embeds[embeds.length-1].footer = ...; embeds[embeds.length-1].timestamp = ..`
on the last embed. -/
def setFooter (ts : Str) : List Embed → List Embed
  | [] => []
  | [e] => [{ e with footer := some (lit "AI Financial Insight Dashboard"), timestamp := some ts }]
  | e :: rest => e :: setFooter ts rest

/-- The webhook's HTTP response (`ok` flag and the `res.json()` outcome,
already stringified for the error message). -/
structure WebhookResponse where
  ok : Bool
  body : Except Thrown Str

/-- The `fetch(webhookUrl, ...)` postamble: a non-ok response throws
`Discord API Error: ...`. -/
def postDigest (resp : Except Thrown WebhookResponse) : Except Thrown Unit :=
  match resp with
  | .error t => .error t
  | .ok r =>
    if r.ok then .ok ()
    else
      match r.body with
      | .error t => .error t
      | .ok s => .error (.err (lit "Discord API Error: " ++ s))

/-- Models variant-1 `sendComprehensiveDiscordMessage`: build the embeds;
with zero embeds return silently without any webhook call; otherwise stamp
the last embed, truncate to 10 (`embeds.slice(0, 10)`) and post once. -/
def sendComprehensive1 (fin cry : List NewsArticle) (cal : CalParse)
    (tr : Option TrumpTracker) (ts : Str)
    (resp : Except Thrown WebhookResponse) : Except Thrown Unit × Nat :=
  let embeds := buildEmbeds1 fin cry cal tr
  if embeds.isEmpty then (.ok (), 0)
  else (postDigest resp, 1)

/-- The embed list actually placed in the variant-1 payload. -/
def payloadEmbeds1 (fin cry : List NewsArticle) (cal : CalParse)
    (tr : Option TrumpTracker) (ts : Str) : List Embed :=
  (setFooter ts (buildEmbeds1 fin cry cal tr)).take 10

/-- Models variant-2 `sendComprehensiveDiscordMessage` (same shape, with
the crypto sections). -/
def sendComprehensive2 (fin cry : List NewsArticle) (cal : CalParse)
    (tr : Option TrumpTracker) (ca : Option CryptoPair) (ts : Str)
    (resp : Except Thrown WebhookResponse) : Except Thrown Unit × Nat :=
  let embeds := buildEmbeds2 fin cry cal tr ca
  if embeds.isEmpty then (.ok (), 0)
  else (postDigest resp, 1)

/-- The embed list actually placed in the variant-2 payload. -/
def payloadEmbeds2 (fin cry : List NewsArticle) (cal : CalParse)
    (tr : Option TrumpTracker) (ca : Option CryptoPair) (ts : Str) : List Embed :=
  (setFooter ts (buildEmbeds2 fin cry cal tr ca)).take 10

/-! ### The UI digest builder (`handleSendToDiscord` in `index.tsx`) -/

/-- The `keyLevels` object of the richer UI analysis shape. -/
structure KeyLevels where
  liquidityPools : Option (List Str)
  orderBlocks : Option (List Str)
  fairValueGaps : Option (List Str)
deriving DecidableEq, Repr

/-- The `currentBias` object. -/
structure Bias where
  sentiment : Str
  targetRange : Str
deriving DecidableEq, Repr

/-- The UI-side `CryptoAnalysisData` shape. -/
structure CryptoUI where
  analysisTimestamp : Str
  dataSource : Option Str
  marketStructure : Option Str
  keyLevels : Option KeyLevels
  bullishScenario : Option Str
  bearishScenario : Option Str
  currentBias : Option Bias
  error : Bool
  message : Option Str
deriving DecidableEq, Repr

/-- Truthiness of an optional string array (`xs?.length`). -/
def jsTruthyList (x : Option (List Str)) : Bool :=
  match x with
  | none => false
  | some l => !l.isEmpty

/-- The `keyLevelsValue` string accumulated by the UI crypto embed. -/
def keyLevelsValue (k : KeyLevels) : Str :=
  (if jsTruthyList k.liquidityPools then
    lit "> **流動性池:** " ++
      List.intercalate (lit ", ") (k.liquidityPools.getD []) ++ lit "\n" else []) ++
  (if jsTruthyList k.orderBlocks then
    lit "> **訂單塊:** " ++
      List.intercalate (lit ", ") (k.orderBlocks.getD []) ++ lit "\n" else []) ++
  (if jsTruthyList k.fairValueGaps then
    lit "> **FVG:** " ++
      List.intercalate (lit ", ") (k.fairValueGaps.getD []) ++ lit "\n" else [])

/-- The UI `createCryptoEmbed`: `null` for an absent or error-flagged
analysis; otherwise up to five fields (bias, market structure, key levels,
bullish, bearish) and `null` when no field survives.  `fmtTs` stands for
`new Date(..).toLocaleString(..)`, an external locale formatter. -/
def createCryptoEmbedUI (fmtTs : Str → Str) (r : Option CryptoUI)
    (name : Str) : Option Embed :=
  match r with
  | none => none
  | some p =>
    if p.error then none
    else
      let fields :=
        (match p.currentBias with
         | none => []
         | some b =>
           [⟨lit "當前趨勢: " ++ b.sentiment ++ lit " " ++
              (if b.sentiment = lit "Bullish" then lit "📈" else lit "📉"),
             lit "> 目標區間: " ++ b.targetRange, false⟩]) ++
        (if jsTruthy p.marketStructure then
          [⟨lit "市場結構", lit "> " ++ p.marketStructure.getD [], false⟩] else []) ++
        (match p.keyLevels with
         | none => []
         | some k =>
           if (keyLevelsValue k).isEmpty then []
           else [⟨lit "關鍵價位", keyLevelsValue k, false⟩]) ++
        (if jsTruthy p.bullishScenario then
          [⟨lit "🐂 看漲劇本", lit "> " ++ p.bullishScenario.getD [], false⟩] else []) ++
        (if jsTruthy p.bearishScenario then
          [⟨lit "🐻 看跌劇本", lit "> " ++ p.bearishScenario.getD [], false⟩] else [])
      if fields.isEmpty then none
      else some
        { title := lit "📈 " ++ name ++ lit " 技術分析",
          color := if name = lit "ETH" then 6250495 else 16098048,
          description := some (lit "**數據來源:** " ++
            orElse p.dataSource (lit "AI 綜合分析") ++ lit "\n**分析時間:** " ++
            fmtTs p.analysisTimestamp),
          fields := fields, footer := none, timestamp := none }

/-- The dashboard state from which the UI builds its digest (every section
may still be absent, `Partial<DashboardData>`). -/
structure UIDashboard where
  financialNews : Option (List NewsArticle)
  cryptoNews : Option (List NewsArticle)
  calendar : Option (List CalendarEvent)
  trumpTracker : Option TrumpTracker
  cryptoEth : Option CryptoUI
  cryptoBtc : Option CryptoUI
  cryptoPresent : Bool
deriving DecidableEq, Repr

/-- The UI figure-tracker embed (post field titled `Truth Social 熱門`). -/
def trumpEmbedsUI (t : TrumpTracker) : List Embed :=
  let fields :=
    (if t.schedule.isEmpty then [] else
      [⟨lit "🎤 行程與演講", scheduleValue t.schedule, false⟩]) ++
    (if t.topPost.postContent.isEmpty then [] else
      [⟨lit "💬 Truth Social 熱門", topPostValue t.topPost, false⟩])
  if fields.isEmpty then []
  else [{ title := lit "🦅 川普動態", color := 15105570, description := none,
          fields := fields, footer := none, timestamp := none }]

/-- An optional section: nothing when the underlying state slice is
absent, otherwise the embeds built from it. -/
def optSection {α : Type} (o : Option α) (f : α → List Embed) : List Embed :=
  match o with
  | none => []
  | some x => f x

/-- The embed list built by `handleSendToDiscord` (lines 140–262 of
`index.tsx`): news, calendar (different title from the push), tracker, then
ETH before BTC.  The payload is `{embeds}` with no `slice`. -/
def buildEmbedsUI (fmtTs : Str → Str) (d : UIDashboard) : List Embed :=
  optSection d.financialNews (fun l =>
    if l.isEmpty then [] else
      [{ title := lit "📰 主要財經新聞", color := 3447003,
         description := some (newsDescription l), fields := [],
         footer := none, timestamp := none }]) ++
  optSection d.cryptoNews (fun l =>
    if l.isEmpty then [] else
      [{ title := lit "📈 加密貨幣新聞", color := 15844367,
         description := some (newsDescription l), fields := [],
         footer := none, timestamp := none }]) ++
  optSection d.calendar (fun l =>
    if l.isEmpty then [] else
      [{ title := lit "🗓️ 本週財經日曆", color := 5763719,
         description := some (calendarDescription l), fields := [],
         footer := none, timestamp := none }]) ++
  optSection d.trumpTracker trumpEmbedsUI ++
  (if d.cryptoPresent then
    optEmbed (createCryptoEmbedUI fmtTs d.cryptoEth (lit "ETH")) ++
    optEmbed (createCryptoEmbedUI fmtTs d.cryptoBtc (lit "BTC"))
  else [])

/-- The embed list of the UI payload: footer stamped onto the last embed
when any exists, and no truncation. -/
def payloadEmbedsUI (fmtTs : Str → Str) (d : UIDashboard) (ts : Str) : List Embed :=
  setFooter ts (buildEmbedsUI fmtTs d)

/-! ### The scheduled-push handlers (`runScheduledPush.ts`, both variants)

The handler functions return the HTTP response together with the number of
model calls (`ai.models.generateContent`) and webhook posts issued. -/

/-- Server-side configuration read from the environment; `none` models an
unset variable. -/
structure Env where
  cronSecret : Option Str
  apiKey : Option Str
  webhookUrl : Option Str

/-- The incoming request: the shared-secret header and the `run` query
parameter (used only by the second variant). -/
structure Request where
  cronHeader : Option Str
  runQuery : Option Str

/-- Response bodies a handler can produce. -/
inductive RespBody where
  | unauthorized
  | configError
  | success (message : Str)
  | internalError (message : Str)
deriving DecidableEq, Repr

/-- The handler's observable outcome. -/
structure HandlerResult where
  status : Nat
  body : RespBody
  modelCalls : Nat
  webhookCalls : Nat
deriving DecidableEq, Repr

/-- The catch-all 500 message:
`Internal Server Error: ${error instanceof Error ? error.message : ...}`. -/
def internalMsg (t : Thrown) : Str :=
  lit "Internal Server Error: " ++
  thrownMessage (lit "An unknown error occurred.") t

/-- Oracle for one run of the first handler variant: outcomes of the two
feed fetches, the three model calls it can issue, the webhook post, and
the wall-clock timestamp string. -/
structure Oracle1 where
  finFeed : Except Thrown FeedResponse
  cryFeed : Except Thrown FeedResponse
  calText : Except Thrown Str
  trackerText : Except Thrown Str
  finNewsText : Except Thrown Str
  cryNewsText : Except Thrown Str
  webhook : Except Thrown WebhookResponse
  now : Str

/-- Parse functions for the first variant (each models `JSON.parse`
composed with coercion to the expected shape). -/
structure Parsers1 where
  news : Str → Except Thrown (List NewsArticle)
  calendar : Str → Except Thrown CalParse
  tracker : Str → Except Thrown TrackerParsed

/-- The try-block of the first handler variant: the first `Promise.all`
launches the two feed fetches together with the calendar and tracker model
calls (which are therefore issued even when a feed rejects); the second
wave summarizes each feed; then the digest is sent. -/
def pipeline1 (p : Parsers1) (o : Oracle1) : HandlerResult :=
  let cal := getFinancialCalendarPush o.calText p.calendar
  let tr := getTrumpTracker o.trackerText p.tracker
  let wave1 := cal.2 + tr.2
  match getNewsFromSource o.finFeed, getNewsFromSource o.cryFeed with
  | .error t, _ => ⟨500, .internalError (internalMsg t), wave1, 0⟩
  | .ok _, .error t => ⟨500, .internalError (internalMsg t), wave1, 0⟩
  | .ok fc, .ok cc =>
    let a1 := analyzeNews o.finNewsText p.news fc
    let a2 := analyzeNews o.cryNewsText p.news cc
    let calls := wave1 + a1.2 + a2.2
    match a1.1, a2.1 with
    | .error t, _ => ⟨500, .internalError (internalMsg t), calls, 0⟩
    | .ok _, .error t => ⟨500, .internalError (internalMsg t), calls, 0⟩
    | .ok fin, .ok cry =>
      let s := sendComprehensive1 fin cry cal.1 (some tr.1) o.now o.webhook
      match s.1 with
      | .error t => ⟨500, .internalError (internalMsg t), calls, s.2⟩
      | .ok _ =>
        ⟨200, .success (lit "Scheduled push completed successfully."), calls, s.2⟩

/-- The first handler variant after its auth check: the configuration check
(`!apiKey || !webhookUrl`) answers 500 before any outbound call. -/
def afterAuth1 (env : Env) (p : Parsers1) (o : Oracle1) : HandlerResult :=
  if !jsTruthy env.apiKey || !jsTruthy env.webhookUrl then
    ⟨500, .configError, 0, 0⟩
  else pipeline1 p o

/-- Models the first `handler` of `runScheduledPush.ts` (lines 167–210):
`req.headers['x-vercel-cron-secret'] !== process.env.CRON_SECRET` answers
401 before anything else. -/
def handler1 (req : Request) (env : Env) (p : Parsers1) (o : Oracle1) :
    HandlerResult :=
  if req.cronHeader ≠ env.cronSecret then ⟨401, .unauthorized, 0, 0⟩
  else afterAuth1 env p o

/-- Oracle for one run of the second handler variant. -/
structure Oracle2 where
  finFeed : Except Thrown FeedResponse
  cryFeed : Except Thrown FeedResponse
  comboText : Except Thrown Str
  trackerText : Except Thrown Str
  ethText : Except Thrown Str
  btcText : Except Thrown Str
  webhook : Except Thrown WebhookResponse
  now : Str

/-- Parse functions for the second variant. -/
structure Parsers2 where
  combo : Str → Except Thrown ComboData
  tracker : Str → Except Thrown TrackerParsed
  crypto : Str → Except Thrown CryptoParsed

/-- Models `req.query.run === 'morning' ? 'morning' : 'evening'`. -/
def runTypeOf (req : Request) : Str :=
  if req.runQuery = some (lit "morning") then lit "morning" else lit "evening"

/-- The try-block of the second handler variant: feeds first; then one
`Promise.all` issuing the combined news-and-calendar call, the tracker call
and both crypto calls (all four are launched, so all four count even when
the combined call rejects); then the digest is sent. -/
def pipeline2 (runType : Str) (p : Parsers2) (o : Oracle2) : HandlerResult :=
  match getNewsFromSource o.finFeed, getNewsFromSource o.cryFeed with
  | .error t, _ => ⟨500, .internalError (internalMsg t), 0, 0⟩
  | .ok _, .error t => ⟨500, .internalError (internalMsg t), 0, 0⟩
  | .ok fc, .ok cc =>
    let combo := getNewsAndCalendarAnalysis o.comboText p.combo fc cc
    let tr := getTrumpTracker o.trackerText p.tracker
    let eth := getCryptoTechnicalAnalysisPush o.ethText p.crypto (lit "ETH")
    let btc := getCryptoTechnicalAnalysisPush o.btcText p.crypto (lit "BTC")
    let calls := combo.2 + tr.2 + eth.2 + btc.2
    match combo.1 with
    | .error t => ⟨500, .internalError (internalMsg t), calls, 0⟩
    | .ok d =>
      let s := sendComprehensive2 d.financialNews d.cryptoNews d.calendar
        (some tr.1) (some ⟨eth.1, btc.1⟩) o.now o.webhook
      match s.1 with
      | .error t => ⟨500, .internalError (internalMsg t), calls, s.2⟩
      | .ok _ =>
        ⟨200, .success (lit "Scheduled " ++ runType ++
          lit " push completed successfully."), calls, s.2⟩

/-- The second handler variant after its auth check. -/
def afterAuth2 (req : Request) (env : Env) (p : Parsers2) (o : Oracle2) :
    HandlerResult :=
  if !jsTruthy env.apiKey || !jsTruthy env.webhookUrl then
    ⟨500, .configError, 0, 0⟩
  else pipeline2 (runTypeOf req) p o

/-- Models the second `handler` of `runScheduledPush.ts` (lines 421–471). -/
def handler2 (req : Request) (env : Env) (p : Parsers2) (o : Oracle2) :
    HandlerResult :=
  if req.cronHeader ≠ env.cronSecret then ⟨401, .unauthorized, 0, 0⟩
  else afterAuth2 req env p o

/-! ### Shared helper lemmas -/

theorem chain'_imp_of_mem {α : Type} {P : α → Prop} {R S : α → α → Prop}
    (hRS : ∀ a b, P a → P b → R a b → S a b) :
    ∀ {l : List α}, (∀ e ∈ l, P e) → l.Chain' R → l.Chain' S := by
  intro l
  induction l with
  | nil => intro _ _; simp
  | cons a l ih =>
    intro hP hch
    cases l with
    | nil => simp
    | cons b l2 =>
      rw [List.chain'_cons] at hch ⊢
      refine ⟨hRS a b (hP a (by simp)) (hP b (by simp)) hch.1, ?_⟩
      exact ih (fun e he => hP e (by simp [he])) hch.2

theorem calKey_isSome_of_valid {e : CalendarEvent}
    (hd : validDate e.date = true) (ht : validTime (timeOrDefault e.time) = true) :
    (calKey e).isSome := by
  unfold calKey
  rw [hd, ht]
  simp

/-! ## Claim C1

Claim (as stated): every run of CalendarFetcher returning a non-empty list
is sorted non-decreasing by the composite key (date, time) and every
element has High importance — established by the caller's defensive
re-filter and sort in all cited variants. -/

/-- C1 counterexample: the `sendToDiscord.ts` copy of
`getFinancialCalendar` applies neither the defensive High re-filter nor the
sort, so a run whose model output parses to a Medium event dated after a
later High event returns it verbatim: the non-empty result keeps a
non-High element and is not sorted by (date, time). -/
theorem c1_counterexample :
    (getFinancialCalendarDiscord (.ok (lit "x"))
        (fun _ => .ok (.arr
          [⟨lit "2025-03-04", lit "09:30", lit "US", lit "CPI", lit "Medium"⟩,
           ⟨lit "2025-03-03", lit "21:00", lit "US", lit "FOMC", lit "High"⟩]))).1 =
      .arr [⟨lit "2025-03-04", lit "09:30", lit "US", lit "CPI", lit "Medium"⟩,
            ⟨lit "2025-03-03", lit "21:00", lit "US", lit "FOMC", lit "High"⟩] ∧
    (lit "Medium" : Str) ≠ lit "High" ∧
    dtLe ⟨lit "2025-03-04", lit "09:30", lit "US", lit "CPI", lit "Medium"⟩
         ⟨lit "2025-03-03", lit "21:00", lit "US", lit "FOMC", lit "High"⟩ = false := by
  refine ⟨rfl, by decide, by decide⟩

/-- C1 (amended): only the `runScheduledPush.ts` variant of
`getFinancialCalendar` (also copied into the latest `getDashboardData.ts`)
establishes the invariant: every run of that variant whose model output
parses to an array of events with well-formed `YYYY-MM-DD` dates and
`HH:MM` times (or empty time, defaulted to `00:00`) returns the array with
every element of High importance, sorted non-decreasing by the composite
(date, time) key.  The `getNewsAndCalendarAnalysis` combined fetcher sorts
but does not re-filter, and the `sendToDiscord.ts` variant does neither. -/
theorem c1_push_calendar_invariant (t : Str) (events : List CalendarEvent)
    (hval : ∀ e ∈ events, validDate e.date = true ∧
      validTime (timeOrDefault e.time) = true) :
    (getFinancialCalendarPush (.ok t) (fun _ => .ok (.arr events))).1 =
      .arr (processCalendarPush events) ∧
    (∀ e ∈ processCalendarPush events, e.importance = lit "High") ∧
    (processCalendarPush events).Chain' (fun a b => dtLe a b = true) := by
  refine ⟨rfl, ?_, ?_⟩
  · intro e he
    have hmem : e ∈ events.filter (fun e => e.importance = lit "High") := by
      simpa [processCalendarPush, mem_sortCal] using he
    have := List.of_mem_filter hmem
    simpa using this
  · have hvalf : ∀ e ∈ events.filter (fun e => e.importance = lit "High"),
        validDate e.date = true ∧ validTime (timeOrDefault e.time) = true := by
      intro e he
      exact hval e (List.mem_of_mem_filter he)
    have hchain : (processCalendarPush events).Chain' (fun a b => calLe a b = true) :=
      chain_sortCal (fun e he => by
        have hm : e ∈ events.filter (fun e => e.importance = lit "High") := by
          simpa [processCalendarPush, mem_sortCal] using he
        exact calKey_isSome_of_valid (hvalf e hm).1 (hvalf e hm).2)
    refine chain'_imp_of_mem
      (P := fun e => validDate e.date = true ∧ validTime (timeOrDefault e.time) = true)
      ?_ ?_ hchain
    · intro a b hpa hpb hR
      exact (calLe_iff_dtLe hpa.1 hpa.2 hpb.1 hpb.2).mp hR
    · intro e he
      have hm : e ∈ events.filter (fun e => e.importance = lit "High") := by
        simpa [processCalendarPush, mem_sortCal] using he
      exact hvalf e hm

/-- C1 witness: a concrete unsorted all-valid input comes back filtered to
High and chronologically ordered. -/
theorem c1_witness :
    (∀ e ∈ [(⟨lit "2025-03-04", lit "09:30", lit "US", lit "CPI", lit "High"⟩ : CalendarEvent),
            ⟨lit "2025-03-03", [], lit "EU", lit "GDP", lit "Low"⟩,
            ⟨lit "2025-03-03", lit "21:00", lit "US", lit "FOMC", lit "High"⟩],
        validDate e.date = true ∧ validTime (timeOrDefault e.time) = true) ∧
    ((getFinancialCalendarPush (.ok (lit "x"))
        (fun _ => .ok (.arr
          [⟨lit "2025-03-04", lit "09:30", lit "US", lit "CPI", lit "High"⟩,
           ⟨lit "2025-03-03", [], lit "EU", lit "GDP", lit "Low"⟩,
           ⟨lit "2025-03-03", lit "21:00", lit "US", lit "FOMC", lit "High"⟩]))).1 =
      .arr (processCalendarPush
          [⟨lit "2025-03-04", lit "09:30", lit "US", lit "CPI", lit "High"⟩,
           ⟨lit "2025-03-03", [], lit "EU", lit "GDP", lit "Low"⟩,
           ⟨lit "2025-03-03", lit "21:00", lit "US", lit "FOMC", lit "High"⟩]) ∧
      (∀ e ∈ processCalendarPush
          [⟨lit "2025-03-04", lit "09:30", lit "US", lit "CPI", lit "High"⟩,
           ⟨lit "2025-03-03", [], lit "EU", lit "GDP", lit "Low"⟩,
           ⟨lit "2025-03-03", lit "21:00", lit "US", lit "FOMC", lit "High"⟩],
        e.importance = lit "High") ∧
      (processCalendarPush
          [⟨lit "2025-03-04", lit "09:30", lit "US", lit "CPI", lit "High"⟩,
           ⟨lit "2025-03-03", [], lit "EU", lit "GDP", lit "Low"⟩,
           ⟨lit "2025-03-03", lit "21:00", lit "US", lit "FOMC", lit "High"⟩]).Chain'
        (fun a b => dtLe a b = true)) :=
  ⟨by decide, c1_push_calendar_invariant (lit "x") _ (by decide)⟩

/-! ## Claim C2

CryptoAnalyst always returns either a parsed analysis whose
`marketStructure` and `bullishScenario` are both present (truthy), or
exactly the degraded `{error: true, message}` with a non-empty message; it
never returns a partially-populated object and never propagates an
exception. -/

theorem append_ne_nil_left {a b : Str} (h : a ≠ []) : a ++ b ≠ [] := by
  cases a with
  | nil => exact absurd rfl h
  | cons c cs => simp

/-- C2: for every model-call outcome and every parse behaviour, both
variants of `getCryptoTechnicalAnalysis` return either a parsed object with
truthy `marketStructure` and `bullishScenario`, or a `{error, message}`
failure with a non-empty message (for the dashboard variant this uses that
thrown `Error`s of the runtime carry non-empty messages, which is a
hypothesis here); being total functions into `CryptoResult`, they never
propagate an exception. -/
theorem c2_crypto_result_shape
    (callText : Except Thrown Str)
    (parseCrypto : Str → Except Thrown CryptoParsed) (ticker : Str)
    (hnet : ∀ m, callText = .error (.err m) → m ≠ [])
    (hparse : ∀ s m, parseCrypto s = .error (.err m) → m ≠ []) :
    ((∃ d, (getCryptoTechnicalAnalysisPush callText parseCrypto ticker).1 = .data d ∧
        jsTruthy d.marketStructure = true ∧ jsTruthy d.bullishScenario = true) ∨
      (∃ m, (getCryptoTechnicalAnalysisPush callText parseCrypto ticker).1 =
        .failure m ∧ m ≠ [])) ∧
    ((∃ d, (getCryptoTechnicalAnalysisDash callText parseCrypto ticker).1 = .data d ∧
        jsTruthy d.marketStructure = true ∧ jsTruthy d.bullishScenario = true) ∨
      (∃ m, (getCryptoTechnicalAnalysisDash callText parseCrypto ticker).1 =
        .failure m ∧ m ≠ [])) := by
  have hpushMsg : pushCryptoMsg ticker ≠ [] := by
    unfold pushCryptoMsg
    exact append_ne_nil_left (append_ne_nil_left (by decide))
  have hdashMsg : dashCryptoMsg ticker ≠ [] := by
    unfold dashCryptoMsg
    exact append_ne_nil_left (append_ne_nil_left (by decide))
  have hmissMsg : missingFieldsMsg ticker ≠ [] := by
    unfold missingFieldsMsg
    exact append_ne_nil_left (append_ne_nil_left (by decide))
  constructor
  · unfold getCryptoTechnicalAnalysisPush
    cases callText with
    | error t => exact Or.inr ⟨_, rfl, hpushMsg⟩
    | ok text =>
      cases hp : parseCrypto (cleanModelText text) with
      | error t => exact Or.inr ⟨_, by simp [hp], hpushMsg⟩
      | ok p =>
        by_cases hm : jsTruthy p.marketStructure && jsTruthy p.bullishScenario
        · refine Or.inl ⟨p, by simp [hp, hm], ?_, ?_⟩
          · exact (Bool.and_eq_true _ _ |>.mp hm).1
          · exact (Bool.and_eq_true _ _ |>.mp hm).2
        · exact Or.inr ⟨_, by simp [hp, hm], hpushMsg⟩
  · unfold getCryptoTechnicalAnalysisDash
    cases callText with
    | error t =>
      cases t with
      | err m =>
        exact Or.inr ⟨m, rfl, hnet m rfl⟩
      | value => exact Or.inr ⟨_, rfl, hdashMsg⟩
    | ok text =>
      cases hp : parseCrypto (cleanModelText text) with
      | error t =>
        cases t with
        | err m => exact Or.inr ⟨m, by simp [hp, thrownMessage], hparse _ m hp⟩
        | value => exact Or.inr ⟨_, by simp [hp, thrownMessage], hdashMsg⟩
      | ok p =>
        by_cases hm : jsTruthy p.marketStructure && jsTruthy p.bullishScenario
        · refine Or.inl ⟨p, by simp [hp, hm], ?_, ?_⟩
          · exact (Bool.and_eq_true _ _ |>.mp hm).1
          · exact (Bool.and_eq_true _ _ |>.mp hm).2
        · exact Or.inr ⟨_, by simp [hp, hm], hmissMsg⟩

/-- C2 witness: a run whose model call rejects with a network `Error`
degrades to the error shape in both variants. -/
theorem c2_witness :
    (∀ m, (Except.error (Thrown.err (lit "fetch failed")) : Except Thrown Str) =
      .error (.err m) → m ≠ []) ∧
    (∀ (s : Str) m, (Except.error (Thrown.err (lit "bad json")) :
        Except Thrown CryptoParsed) = .error (.err m) → m ≠ []) ∧
    (((∃ d, (getCryptoTechnicalAnalysisPush (.error (.err (lit "fetch failed")))
        (fun _ => .error (.err (lit "bad json"))) (lit "BTC")).1 = .data d ∧
        jsTruthy d.marketStructure = true ∧ jsTruthy d.bullishScenario = true) ∨
      (∃ m, (getCryptoTechnicalAnalysisPush (.error (.err (lit "fetch failed")))
        (fun _ => .error (.err (lit "bad json"))) (lit "BTC")).1 = .failure m ∧ m ≠ [])) ∧
     ((∃ d, (getCryptoTechnicalAnalysisDash (.error (.err (lit "fetch failed")))
        (fun _ => .error (.err (lit "bad json"))) (lit "BTC")).1 = .data d ∧
        jsTruthy d.marketStructure = true ∧ jsTruthy d.bullishScenario = true) ∨
      (∃ m, (getCryptoTechnicalAnalysisDash (.error (.err (lit "fetch failed")))
        (fun _ => .error (.err (lit "bad json"))) (lit "BTC")).1 = .failure m ∧ m ≠ []))) :=
  ⟨fun m h => by injection h with h2; injection h2 with h3; subst h3; decide,
   fun s m h => by injection h with h2; injection h2 with h3; subst h3; decide,
   c2_crypto_result_shape (.error (.err (lit "fetch failed")))
     (fun _ => .error (.err (lit "bad json"))) (lit "BTC")
     (fun m h => by injection h with h2; injection h2 with h3; subst h3; decide)
     (fun s m h => by injection h with h2; injection h2 with h3; subst h3; decide)⟩

/-! ## Claim C3

Claim (as stated): for every feed fetch, a non-success HTTP status raises a
propagating error, whereas a successful HTTP response whose body lacks
parseable items (non-ok feed status or absent items) yields an empty
result, not an error. -/

/-- C3 counterexample: in the `getNews.ts` endpoint a successful HTTP
response whose body carries feed status `'error'` does not yield an empty
result — it raises `rss2json API error: ...` (turned into a 500 by the
surrounding catch). -/
theorem c3_counterexample :
    getNewsFeedStep (.ok ⟨true, 200, [], .ok ⟨lit "error", none, lit "bad feed"⟩⟩) =
      .errorResult (lit "rss2json API error: " ++ lit "bad feed") := by
  decide

/-- C3 (amended): a non-success HTTP status from the relay raises a
propagating error in every variant.  A successful HTTP response with a
non-ok feed status or an absent items array yields the empty string in the
`getNewsFromSource` copies; in the `getNews.ts` endpoint only absent or
empty items yield the empty list — a non-ok feed status there raises an
error instead. -/
theorem c3_feed_error_vs_empty (r : FeedResponse) (j : Rss2Json) :
    (r.ok = false →
      getNewsFromSource (.ok r) =
        .error (.err (lit "Failed to fetch from rss2json. Status: " ++
          lit (toString r.status))) ∧
      getNewsFeedStep (.ok r) =
        .errorResult (lit "Failed to fetch from rss2json proxy. Status: " ++
          lit (toString r.status) ++ lit ". Body: " ++ r.text)) ∧
    (r.ok = true → r.body = .ok j →
      ((j.status ≠ lit "ok" ∨ j.items = none) → getNewsFromSource (.ok r) = .ok []) ∧
      (j.status ≠ lit "ok" →
        getNewsFeedStep (.ok r) = .errorResult (lit "rss2json API error: " ++ j.message)) ∧
      (j.status = lit "ok" → (j.items = none ∨ j.items = some []) →
        getNewsFeedStep (.ok r) = .emptyResult)) := by
  constructor
  · intro hok
    constructor
    · unfold getNewsFromSource
      simp [hok]
    · unfold getNewsFeedStep
      simp [hok]
  · intro hok hbody
    refine ⟨?_, ?_, ?_⟩
    · intro hempty
      unfold getNewsFromSource
      simp [hok, hbody, hempty]
    · intro hstatus
      unfold getNewsFeedStep
      simp [hok, hbody, hstatus]
    · intro hstatus hitems
      unfold getNewsFeedStep
      rcases hitems with h | h <;> simp [hok, hbody, hstatus, h, List.isEmpty]

/-- C3 witness: concrete runs — an HTTP 503 propagates an error from
`getNewsFromSource`, an ok response with absent items yields the empty
string, and an ok response with an empty items array yields the empty list
from the endpoint. -/
theorem c3_witness :
    getNewsFromSource (.ok ⟨false, 503, [], .ok ⟨lit "ok", none, []⟩⟩) =
      .error (.err (lit "Failed to fetch from rss2json. Status: " ++ lit (toString 503))) ∧
    getNewsFromSource (.ok ⟨true, 200, [], .ok ⟨lit "ok", none, []⟩⟩) = .ok [] ∧
    getNewsFeedStep (.ok ⟨true, 200, [], .ok ⟨lit "ok", some [], []⟩⟩) = .emptyResult :=
  ⟨((c3_feed_error_vs_empty ⟨false, 503, [], .ok ⟨lit "ok", none, []⟩⟩
      ⟨lit "ok", none, []⟩).1 rfl).1,
   ((c3_feed_error_vs_empty ⟨true, 200, [], .ok ⟨lit "ok", none, []⟩⟩
      ⟨lit "ok", none, []⟩).2 rfl rfl).1 (Or.inr rfl),
   (((c3_feed_error_vs_empty ⟨true, 200, [], .ok ⟨lit "ok", some [], []⟩⟩
      ⟨lit "ok", some [], []⟩).2 rfl rfl).2.2 rfl (Or.inr rfl))⟩

/-! ## Claim C4

Claim (as stated): the Summarizer returns `[]` and issues zero model calls
on every empty / all-whitespace raw-text input, invoking the model only on
inputs with a non-whitespace character. -/

/-- C4 counterexample: the combined `getNewsAndCalendarAnalysis` summarizer
(cited by the claim) issues one model call even when both raw-text inputs
are empty — there is no blank-input guard in that variant. -/
theorem c4_counterexample :
    (getNewsAndCalendarAnalysis (.ok (lit "{}"))
      (fun _ => .ok ⟨[], [], .arr []⟩) [] []).2 = 1 := by
  decide

/-- C4 (amended): `analyzeNews` satisfies the claim — a blank input yields
`([], 0 model calls)` and a non-blank input issues exactly one model
call — but the combined `getNewsAndCalendarAnalysis` always issues exactly
one model call regardless of its raw-text inputs. -/
theorem c4_blank_input_guard (callText : Except Thrown Str)
    (parseNews : Str → Except Thrown (List NewsArticle)) (content : Str)
    (comboText : Except Thrown Str)
    (parseCombo : Str → Except Thrown ComboData) (fc cc : Str) :
    ((trimJs content).isEmpty = true →
      analyzeNews callText parseNews content = (.ok [], 0)) ∧
    ((trimJs content).isEmpty = false →
      (analyzeNews callText parseNews content).2 = 1) ∧
    (getNewsAndCalendarAnalysis comboText parseCombo fc cc).2 = 1 := by
  refine ⟨?_, ?_, rfl⟩
  · intro h
    unfold analyzeNews
    simp [h]
  · intro h
    unfold analyzeNews
    rw [h]
    cases callText <;> simp

/-- C4 witness: a whitespace-only input produces no model call, a one-word
input produces exactly one. -/
theorem c4_witness :
    (trimJs (lit "  \n\t ")).isEmpty = true ∧
    (trimJs (lit "news")).isEmpty = false ∧
    analyzeNews (.ok (lit "[]")) (fun _ => .ok []) (lit "  \n\t ") = (.ok [], 0) ∧
    (analyzeNews (.ok (lit "[]")) (fun _ => .ok []) (lit "news")).2 = 1 :=
  ⟨by decide, by decide,
   (c4_blank_input_guard (.ok (lit "[]")) (fun _ => .ok []) (lit "  \n\t ")
      (.ok []) (fun _ => .ok ⟨[], [], .arr []⟩) [] []).1 (by decide),
   (c4_blank_input_guard (.ok (lit "[]")) (fun _ => .ok []) (lit "news")
      (.ok []) (fun _ => .ok ⟨[], [], .arr []⟩) [] []).2.1 (by decide)⟩

/-! ## Claim C5

A scheduled-push request whose `x-vercel-cron-secret` header differs from
the configured `CRON_SECRET` is answered 401 Unauthorized with zero model
calls and zero webhook calls, in both handler variants. -/

/-- C5: the auth rejection happens before any outbound effect. -/
theorem c5_wrong_secret_unauthorized (req : Request) (env : Env)
    (p1 : Parsers1) (o1 : Oracle1) (p2 : Parsers2) (o2 : Oracle2)
    (h : req.cronHeader ≠ env.cronSecret) :
    handler1 req env p1 o1 = ⟨401, .unauthorized, 0, 0⟩ ∧
    handler2 req env p2 o2 = ⟨401, .unauthorized, 0, 0⟩ := by
  unfold handler1 handler2
  simp [h]

/-- C5 witness: a concrete request with the wrong secret against a
configured environment. -/
theorem c5_witness :
    (some (lit "wrong") : Option Str) ≠ some (lit "secret") ∧
    handler1 ⟨some (lit "wrong"), none⟩ ⟨some (lit "secret"), some (lit "k"), some (lit "u")⟩
      ⟨fun _ => .ok [], fun _ => .ok (.arr []), fun _ => .ok ⟨none, none⟩⟩
      ⟨.error .value, .error .value, .error .value, .error .value, .error .value,
       .error .value, .error .value, []⟩ = ⟨401, .unauthorized, 0, 0⟩ ∧
    handler2 ⟨some (lit "wrong"), none⟩ ⟨some (lit "secret"), some (lit "k"), some (lit "u")⟩
      ⟨fun _ => .ok ⟨[], [], .arr []⟩, fun _ => .ok ⟨none, none⟩, fun _ => .error .value⟩
      ⟨.error .value, .error .value, .error .value, .error .value, .error .value,
       .error .value, .error .value, []⟩ = ⟨401, .unauthorized, 0, 0⟩ :=
  ⟨by decide,
   (c5_wrong_secret_unauthorized ⟨some (lit "wrong"), none⟩
      ⟨some (lit "secret"), some (lit "k"), some (lit "u")⟩
      ⟨fun _ => .ok [], fun _ => .ok (.arr []), fun _ => .ok ⟨none, none⟩⟩
      ⟨.error .value, .error .value, .error .value, .error .value, .error .value,
       .error .value, .error .value, []⟩
      ⟨fun _ => .ok ⟨[], [], .arr []⟩, fun _ => .ok ⟨none, none⟩, fun _ => .error .value⟩
      ⟨.error .value, .error .value, .error .value, .error .value, .error .value,
       .error .value, .error .value, []⟩ (by decide)).1,
   (c5_wrong_secret_unauthorized ⟨some (lit "wrong"), none⟩
      ⟨some (lit "secret"), some (lit "k"), some (lit "u")⟩
      ⟨fun _ => .ok [], fun _ => .ok (.arr []), fun _ => .ok ⟨none, none⟩⟩
      ⟨.error .value, .error .value, .error .value, .error .value, .error .value,
       .error .value, .error .value, []⟩
      ⟨fun _ => .ok ⟨[], [], .arr []⟩, fun _ => .ok ⟨none, none⟩, fun _ => .error .value⟩
      ⟨.error .value, .error .value, .error .value, .error .value, .error .value,
       .error .value, .error .value, []⟩ (by decide)).2⟩

/-! ## Claim C6

Claim (as stated): once the secret check passes, absence of any required
configuration — scheduler secret, model credential or webhook URL — yields
a configuration-error status distinct from the auth rejection, with zero
webhook calls. -/

/-- C6 counterexample: with `CRON_SECRET` unset, a headerless request
passes the secret check, yet although the scheduler secret is absent the
handler does not answer with the configuration error — with the model
credential and webhook URL present it runs the pipeline and answers 200. -/
theorem c6_counterexample :
    handler2 ⟨none, none⟩ ⟨none, some (lit "k"), some (lit "u")⟩
      ⟨fun _ => .ok ⟨[], [], .arr []⟩, fun _ => .error .value, fun _ => .error .value⟩
      ⟨.ok ⟨true, 200, [], .ok ⟨lit "ok", none, []⟩⟩,
       .ok ⟨true, 200, [], .ok ⟨lit "ok", none, []⟩⟩,
       .ok (lit "{}"), .error .value, .error .value, .error .value,
       .ok ⟨true, .ok []⟩, []⟩ =
      ⟨200, .success (lit "Scheduled evening push completed successfully."), 4, 0⟩ := by
  decide

/-- C6 (amended): once the secret check passes, a falsy model credential or
webhook URL yields the 500 configuration error — distinct from the 401
auth rejection — with zero model calls and zero webhook calls, in both
variants; the scheduler secret itself is not configuration-checked. -/
theorem c6_config_error (req : Request) (env : Env)
    (p1 : Parsers1) (o1 : Oracle1) (p2 : Parsers2) (o2 : Oracle2)
    (hauth : req.cronHeader = env.cronSecret)
    (hcfg : jsTruthy env.apiKey = false ∨ jsTruthy env.webhookUrl = false) :
    handler1 req env p1 o1 = ⟨500, .configError, 0, 0⟩ ∧
    handler2 req env p2 o2 = ⟨500, .configError, 0, 0⟩ ∧
    (500 : Nat) ≠ 401 ∧ RespBody.configError ≠ RespBody.unauthorized := by
  have hc : (!jsTruthy env.apiKey || !jsTruthy env.webhookUrl) = true := by
    rcases hcfg with h | h <;> simp [h]
  refine ⟨?_, ?_, by decide, by decide⟩
  · unfold handler1 afterAuth1
    simp [hauth, hc]
  · unfold handler2 afterAuth2
    simp [hauth, hc]

/-- C6 witness: correct secret with a missing webhook URL — the handler
answers the configuration error without attempting the webhook. -/
theorem c6_witness :
    (some (lit "secret") : Option Str) = some (lit "secret") ∧
    jsTruthy (none : Option Str) = false ∧
    handler2 ⟨some (lit "secret"), none⟩ ⟨some (lit "secret"), some (lit "k"), none⟩
      ⟨fun _ => .ok ⟨[], [], .arr []⟩, fun _ => .ok ⟨none, none⟩, fun _ => .error .value⟩
      ⟨.error .value, .error .value, .error .value, .error .value, .error .value,
       .error .value, .error .value, []⟩ = ⟨500, .configError, 0, 0⟩ :=
  ⟨rfl, by decide,
   (c6_config_error ⟨some (lit "secret"), none⟩ ⟨some (lit "secret"), some (lit "k"), none⟩
      ⟨fun _ => .ok [], fun _ => .ok (.arr []), fun _ => .ok ⟨none, none⟩⟩
      ⟨.error .value, .error .value, .error .value, .error .value, .error .value,
       .error .value, .error .value, []⟩
      ⟨fun _ => .ok ⟨[], [], .arr []⟩, fun _ => .ok ⟨none, none⟩, fun _ => .error .value⟩
      ⟨.error .value, .error .value, .error .value, .error .value, .error .value,
       .error .value, .error .value, []⟩ rfl (Or.inr (by decide))).2.1⟩

/-! ## Claim C7

The digest payload never contains more than 10 embed sections, whatever
the input aggregate. -/

theorem setFooter_length (ts : Str) (l : List Embed) :
    (setFooter ts l).length = l.length := by
  induction l with
  | nil => rfl
  | cons e rest ih =>
    cases rest with
    | nil => rfl
    | cons f rest2 =>
      simp only [setFooter, List.length_cons] at ih ⊢
      omega

theorem optEmbed_length_le (o : Option Embed) : (optEmbed o).length ≤ 1 := by
  cases o <;> simp [optEmbed]

theorem trumpEmbeds_length_le (t : TrumpTracker) : (trumpEmbeds t).length ≤ 1 := by
  unfold trumpEmbeds
  split_ifs <;> simp

theorem trumpEmbedsUI_length_le (t : TrumpTracker) : (trumpEmbedsUI t).length ≤ 1 := by
  unfold trumpEmbedsUI
  split_ifs <;> simp

theorem optSection_length_le {α : Type} (o : Option α) (f : α → List Embed)
    (h : ∀ a, (f a).length ≤ 1) : (optSection o f).length ≤ 1 := by
  cases o with
  | none => simp [optSection]
  | some a => simpa [optSection] using h a

/-- C7: all three digest builders put at most 10 embeds in the payload —
the two scheduled-push variants by the explicit `slice(0, 10)`, the UI
builder because its six section groups contribute at most six embeds. -/
theorem c7_embed_limit (fin cry : List NewsArticle) (cal : CalParse)
    (tr : Option TrumpTracker) (ca : Option CryptoPair) (ts : Str)
    (fmtTs : Str → Str) (d : UIDashboard) :
    (payloadEmbeds1 fin cry cal tr ts).length ≤ 10 ∧
    (payloadEmbeds2 fin cry cal tr ca ts).length ≤ 10 ∧
    (payloadEmbedsUI fmtTs d ts).length ≤ 10 := by
  refine ⟨?_, ?_, ?_⟩
  · unfold payloadEmbeds1
    simp [List.length_take]
  · unfold payloadEmbeds2
    simp [List.length_take]
  · unfold payloadEmbedsUI
    rw [setFooter_length]
    unfold buildEmbedsUI
    have h1 := optSection_length_le d.financialNews (fun l =>
      if l.isEmpty then [] else
        [{ title := lit "📰 主要財經新聞", color := 3447003,
           description := some (newsDescription l), fields := [],
           footer := none, timestamp := none }]) (fun l => by dsimp only; split <;> simp)
    have h2 := optSection_length_le d.cryptoNews (fun l =>
      if l.isEmpty then [] else
        [{ title := lit "📈 加密貨幣新聞", color := 15844367,
           description := some (newsDescription l), fields := [],
           footer := none, timestamp := none }]) (fun l => by dsimp only; split <;> simp)
    have h3 := optSection_length_le d.calendar (fun l =>
      if l.isEmpty then [] else
        [{ title := lit "🗓️ 本週財經日曆", color := 5763719,
           description := some (calendarDescription l), fields := [],
           footer := none, timestamp := none }]) (fun l => by dsimp only; split <;> simp)
    have h4 := optSection_length_le d.trumpTracker trumpEmbedsUI trumpEmbedsUI_length_le
    have h5 : (if d.cryptoPresent then
        optEmbed (createCryptoEmbedUI fmtTs d.cryptoEth (lit "ETH")) ++
        optEmbed (createCryptoEmbedUI fmtTs d.cryptoBtc (lit "BTC"))
      else []).length ≤ 2 := by
      split
      · rw [List.length_append]
        have := optEmbed_length_le (createCryptoEmbedUI fmtTs d.cryptoEth (lit "ETH"))
        have := optEmbed_length_le (createCryptoEmbedUI fmtTs d.cryptoBtc (lit "BTC"))
        omega
      · simp
    simp only [List.length_append]
    omega

/-! ## Claim C8

Claim (as stated): for every JSON payload `p`, the fence-stripping step
maps the fenced blob `"```json" ++ p ++ "```"` (after trimming) back to
`p`, including payloads whose string values contain backtick runs. -/

/-- C8 counterexample: a payload whose string value is itself a triple
backtick is mangled by the global `/```json|```/g` replacement — the inner
fence is deleted too, so the round trip fails. -/
theorem c8_counterexample :
    cleanModelText (fenceJson ++ (lit "[\"" ++ fence3 ++ lit "\"]") ++ fence3) ≠
      lit "[\"" ++ fence3 ++ lit "\"]" := by
  decide

theorem trimJs_fence (p : Str) :
    trimJs (fenceJson ++ p ++ fence3) = fenceJson ++ p ++ fence3 := by
  have hws : jsWs bq = false := by decide
  have hcons : fenceJson ++ p ++ fence3 =
      bq :: ([bq, bq, 'j', 's', 'o', 'n'] ++ p ++ fence3) := by
    simp [fenceJson, fence3]
  have hsnoc : fenceJson ++ p ++ fence3 = (fenceJson ++ p ++ [bq, bq]) ++ [bq] := by
    simp [fence3, List.append_assoc]
  unfold trimJs
  rw [hcons, List.dropWhile_cons]
  rw [hws]
  simp only [Bool.false_eq_true, if_false]
  rw [← hcons, hsnoc]
  rw [List.reverse_append]
  simp only [List.reverse_cons, List.reverse_nil, List.nil_append, List.cons_append,
    List.dropWhile_cons, hws, Bool.false_eq_true, if_false]
  rw [List.reverse_reverse]

theorem stripFences_fenceJson (rest : Str) :
    stripFences (fenceJson ++ rest) = stripFences rest := by
  have hcons : fenceJson ++ rest = bq :: ([bq, bq, 'j', 's', 'o', 'n'] ++ rest) := by
    simp [fenceJson, fence3]
  rw [hcons, stripFences_cons]
  have htake : (bq :: ([bq, bq, 'j', 's', 'o', 'n'] ++ rest)).take 7 = fenceJson := by
    simp [fenceJson, fence3]
  rw [if_pos htake]
  have hdrop : (bq :: ([bq, bq, 'j', 's', 'o', 'n'] ++ rest)).drop 7 = rest := by
    simp
  rw [hdrop]

theorem stripFences_append_fence3 :
    ∀ (p : Str), containsFence p = false → stripFences (p ++ fence3) = p := by
  intro p
  induction p with
  | nil =>
    intro _
    show stripFences fence3 = []
    decide
  | cons c cs ih =>
    intro h
    have hparts : ((c :: cs).take 3 = fence3 → False) ∧ containsFence cs = false := by
      unfold containsFence at h
      simp only [Bool.or_eq_false_iff, decide_eq_false_iff_not] at h
      exact h
    by_cases h3 : (c :: (cs ++ fence3)).take 3 = fence3
    · cases cs with
      | nil =>
        have hc : c = bq := by
          simp [fence3] at h3
          exact h3
        subst hc
        show stripFences ([bq] ++ fence3) = [bq]
        decide
      | cons c2 cs2 =>
        cases cs2 with
        | nil =>
          have hc : c = bq ∧ c2 = bq := by
            simp [fence3] at h3
            exact h3
          obtain ⟨rfl, rfl⟩ := hc
          show stripFences ([bq, bq] ++ fence3) = [bq, bq]
          decide
        | cons c3 cs3 =>
          exfalso
          apply hparts.1
          have heq : (c :: ((c2 :: c3 :: cs3) ++ fence3)).take 3 = [c, c2, c3] := by
            simp
          rw [heq] at h3
          simp [h3]
    · have h7 : ¬ ((c :: (cs ++ fence3)).take 7 = fenceJson) := by
        intro h7
        apply h3
        have : (c :: (cs ++ fence3)).take 3 = ((c :: (cs ++ fence3)).take 7).take 3 := by
          rw [List.take_take]
          norm_num
        rw [this, h7]
        rfl
      rw [List.cons_append, stripFences_cons, if_neg h7, if_neg h3]
      rw [ih hparts.2]

/-- C8 (amended): the round trip holds for every payload that contains no
triple-backtick run: trimming the fenced blob and applying the global
`/```json|```/g` replacement recovers `p` exactly (even when `p` ends with
one or two stray backticks).  Payloads containing a backtick fence inside a
string value are altered, per the counterexample. -/
theorem c8_fence_roundtrip (p : Str) (h : containsFence p = false) :
    cleanModelText (fenceJson ++ p ++ fence3) = p := by
  unfold cleanModelText
  rw [trimJs_fence, List.append_assoc, stripFences_fenceJson]
  exact stripFences_append_fence3 p h

/-- C8 witness: a concrete fence-free JSON payload survives the round
trip. -/
theorem c8_witness :
    containsFence (lit "[\"b`c\", 1]") = false ∧
    cleanModelText (fenceJson ++ lit "[\"b`c\", 1]" ++ fence3) =
      lit "[\"b`c\", 1]" :=
  ⟨by decide, c8_fence_roundtrip (lit "[\"b`c\", 1]") (by decide)⟩

/-! ## Claim C9

With `CRON_SECRET` unset and no `x-vercel-cron-secret` header, the JS
strict inequality compares `undefined !== undefined`, which is false: the
request is treated as authorized and reaches the configuration checks; the
missing secret itself never yields the auth rejection or the dedicated
configuration error. -/

theorem pipeline1_body (p : Parsers1) (o : Oracle1) :
    (pipeline1 p o).body ≠ .unauthorized ∧ (pipeline1 p o).body ≠ .configError := by
  constructor <;>
  · unfold pipeline1
    split
    · simp
    · simp
    · dsimp only
      split
      · simp
      · simp
      · split
        · simp
        · simp

theorem pipeline2_body (runType : Str) (p : Parsers2) (o : Oracle2) :
    (pipeline2 runType p o).body ≠ .unauthorized ∧
    (pipeline2 runType p o).body ≠ .configError := by
  constructor <;>
  · unfold pipeline2
    split
    · simp
    · simp
    · dsimp only
      split
      · simp
      · split
        · simp
        · simp

/-- C9: a headerless request against an unset secret passes the auth check
in both variants (the handler behaves as its post-auth continuation), is
never answered 401, and — when the model credential and webhook URL are
present — is not answered with the configuration error either. -/
theorem c9_missing_secret_fail_open (req : Request) (env : Env)
    (p1 : Parsers1) (o1 : Oracle1) (p2 : Parsers2) (o2 : Oracle2)
    (hsec : env.cronSecret = none) (hhdr : req.cronHeader = none) :
    handler1 req env p1 o1 = afterAuth1 env p1 o1 ∧
    handler2 req env p2 o2 = afterAuth2 req env p2 o2 ∧
    (handler1 req env p1 o1).body ≠ .unauthorized ∧
    (handler2 req env p2 o2).body ≠ .unauthorized ∧
    (jsTruthy env.apiKey = true → jsTruthy env.webhookUrl = true →
      (handler1 req env p1 o1).body ≠ .configError ∧
      (handler2 req env p2 o2).body ≠ .configError) := by
  have hpass : ¬ (req.cronHeader ≠ env.cronSecret) := by
    simp [hsec, hhdr]
  have h1 : handler1 req env p1 o1 = afterAuth1 env p1 o1 := by
    unfold handler1
    rw [if_neg hpass]
  have h2 : handler2 req env p2 o2 = afterAuth2 req env p2 o2 := by
    unfold handler2
    rw [if_neg hpass]
  refine ⟨h1, h2, ?_, ?_, ?_⟩
  · rw [h1]
    unfold afterAuth1
    split
    · simp
    · exact (pipeline1_body p1 o1).1
  · rw [h2]
    unfold afterAuth2
    split
    · simp
    · exact (pipeline2_body (runTypeOf req) p2 o2).1
  · intro hk hw
    have hc : (!jsTruthy env.apiKey || !jsTruthy env.webhookUrl) = false := by
      simp [hk, hw]
    constructor
    · rw [h1]
      unfold afterAuth1
      rw [if_neg (by simp [hc] : ¬ (!jsTruthy env.apiKey || !jsTruthy env.webhookUrl) = true)]
      exact (pipeline1_body p1 o1).2
    · rw [h2]
      unfold afterAuth2
      rw [if_neg (by simp [hc] : ¬ (!jsTruthy env.apiKey || !jsTruthy env.webhookUrl) = true)]
      exact (pipeline2_body (runTypeOf req) p2 o2).2

/-- C9 witness: a concrete headerless request with an unset secret and
full remaining configuration reaches the pipeline and is answered 200. -/
theorem c9_witness :
    ((⟨none, some (lit "k"), some (lit "u")⟩ : Env).cronSecret = none ∧
     (⟨none, none⟩ : Request).cronHeader = none) ∧
    (handler2 ⟨none, none⟩ ⟨none, some (lit "k"), some (lit "u")⟩
      ⟨fun _ => .ok ⟨[], [], .arr []⟩, fun _ => .error .value, fun _ => .error .value⟩
      ⟨.ok ⟨true, 200, [], .ok ⟨lit "ok", none, []⟩⟩,
       .ok ⟨true, 200, [], .ok ⟨lit "ok", none, []⟩⟩,
       .ok (lit "{}"), .error .value, .error .value, .error .value,
       .ok ⟨true, .ok []⟩, []⟩).body ≠ .unauthorized ∧
    (handler2 ⟨none, none⟩ ⟨none, some (lit "k"), some (lit "u")⟩
      ⟨fun _ => .ok ⟨[], [], .arr []⟩, fun _ => .error .value, fun _ => .error .value⟩
      ⟨.ok ⟨true, 200, [], .ok ⟨lit "ok", none, []⟩⟩,
       .ok ⟨true, 200, [], .ok ⟨lit "ok", none, []⟩⟩,
       .ok (lit "{}"), .error .value, .error .value, .error .value,
       .ok ⟨true, .ok []⟩, []⟩).body ≠ .configError :=
  ⟨⟨rfl, rfl⟩,
   (c9_missing_secret_fail_open ⟨none, none⟩ ⟨none, some (lit "k"), some (lit "u")⟩
      ⟨fun _ => .ok [], fun _ => .ok (.arr []), fun _ => .ok ⟨none, none⟩⟩
      ⟨.error .value, .error .value, .error .value, .error .value, .error .value,
       .error .value, .error .value, []⟩
      ⟨fun _ => .ok ⟨[], [], .arr []⟩, fun _ => .error .value, fun _ => .error .value⟩
      ⟨.ok ⟨true, 200, [], .ok ⟨lit "ok", none, []⟩⟩,
       .ok ⟨true, 200, [], .ok ⟨lit "ok", none, []⟩⟩,
       .ok (lit "{}"), .error .value, .error .value, .error .value,
       .ok ⟨true, .ok []⟩, []⟩ rfl rfl).2.2.2.1,
   ((c9_missing_secret_fail_open ⟨none, none⟩ ⟨none, some (lit "k"), some (lit "u")⟩
      ⟨fun _ => .ok [], fun _ => .ok (.arr []), fun _ => .ok ⟨none, none⟩⟩
      ⟨.error .value, .error .value, .error .value, .error .value, .error .value,
       .error .value, .error .value, []⟩
      ⟨fun _ => .ok ⟨[], [], .arr []⟩, fun _ => .error .value, fun _ => .error .value⟩
      ⟨.ok ⟨true, 200, [], .ok ⟨lit "ok", none, []⟩⟩,
       .ok ⟨true, 200, [], .ok ⟨lit "ok", none, []⟩⟩,
       .ok (lit "{}"), .error .value, .error .value, .error .value,
       .ok ⟨true, .ok []⟩, []⟩ rfl rfl).2.2.2.2 (by decide) (by decide)).2⟩

/-! ## Claim C10

When every section of the aggregate is empty — no news, no calendar
events, empty tracker schedule and post, no usable crypto analyses — the
digest sender builds zero embeds and returns without posting to the
webhook, and the handler still answers 200 success. -/

/-- C10: in both handler variants, an all-empty aggregate produces zero
embeds, zero webhook calls, and a 200 success response.  The hypotheses
pin each component's outcome to its empty form; the model-call counts (2
for the first variant, 4 for the second) are exactly the fetch wave. -/
theorem c10_empty_digest_success (req : Request) (env : Env)
    (p1 : Parsers1) (o1 : Oracle1) (p2 : Parsers2) (o2 : Oracle2)
    (s1 s2 u m1 m2 : Str)
    (hauth : req.cronHeader = env.cronSecret)
    (hk : jsTruthy env.apiKey = true) (hw : jsTruthy env.webhookUrl = true)
    (hf1 : getNewsFromSource o1.finFeed = .ok [])
    (hf2 : getNewsFromSource o1.cryFeed = .ok [])
    (hcal : (getFinancialCalendarPush o1.calText p1.calendar).1 = .arr [])
    (htr1 : (getTrumpTracker o1.trackerText p1.tracker).1 = ⟨[], ⟨[], []⟩⟩)
    (hg1 : getNewsFromSource o2.finFeed = .ok s1)
    (hg2 : getNewsFromSource o2.cryFeed = .ok s2)
    (hcombo : (getNewsAndCalendarAnalysis o2.comboText p2.combo s1 s2).1 =
      .ok ⟨[], [], .arr []⟩)
    (htr2 : (getTrumpTracker o2.trackerText p2.tracker).1 = ⟨[], ⟨[], u⟩⟩)
    (heth : (getCryptoTechnicalAnalysisPush o2.ethText p2.crypto (lit "ETH")).1 =
      .failure m1)
    (hbtc : (getCryptoTechnicalAnalysisPush o2.btcText p2.crypto (lit "BTC")).1 =
      .failure m2) :
    buildEmbeds1 [] [] (.arr []) (some ⟨[], ⟨[], []⟩⟩) = [] ∧
    buildEmbeds2 [] [] (.arr []) (some ⟨[], ⟨[], u⟩⟩)
      (some ⟨.failure m1, .failure m2⟩) = [] ∧
    sendComprehensive1 [] [] (.arr []) (some ⟨[], ⟨[], []⟩⟩) o1.now o1.webhook =
      (.ok (), 0) ∧
    handler1 req env p1 o1 =
      ⟨200, .success (lit "Scheduled push completed successfully."), 2, 0⟩ ∧
    handler2 req env p2 o2 =
      ⟨200, .success (lit "Scheduled " ++ runTypeOf req ++
        lit " push completed successfully."), 4, 0⟩ := by
  have hpass : ¬ (req.cronHeader ≠ env.cronSecret) := by simp [hauth]
  have hcfg : (!jsTruthy env.apiKey || !jsTruthy env.webhookUrl) = false := by
    simp [hk, hw]
  have hb2 : buildEmbeds2 [] [] (.arr []) (some ⟨[], ⟨[], u⟩⟩)
      (some ⟨.failure m1, .failure m2⟩) = [] := by
    simp [buildEmbeds2, baseEmbeds, trumpEmbeds, createCryptoEmbedPush, optEmbed]
  have hcal2 : (getFinancialCalendarPush o1.calText p1.calendar).2 = 1 := rfl
  have htr1c : (getTrumpTracker o1.trackerText p1.tracker).2 = 1 := rfl
  have hcombo2 : (getNewsAndCalendarAnalysis o2.comboText p2.combo s1 s2).2 = 1 := rfl
  have htr2c : (getTrumpTracker o2.trackerText p2.tracker).2 = 1 := rfl
  have heth2 : (getCryptoTechnicalAnalysisPush o2.ethText p2.crypto (lit "ETH")).2 = 1 := rfl
  have hbtc2 : (getCryptoTechnicalAnalysisPush o2.btcText p2.crypto (lit "BTC")).2 = 1 := rfl
  have hana : ∀ (ct : Except Thrown Str) (pn : Str → Except Thrown (List NewsArticle)),
      analyzeNews ct pn [] = (.ok [], 0) := fun _ _ => rfl
  have hsend1 : sendComprehensive1 [] [] (.arr []) (some ⟨[], ⟨[], []⟩⟩)
      o1.now o1.webhook = (.ok (), 0) := rfl
  have hsend2 : sendComprehensive2 [] [] (.arr []) (some ⟨[], ⟨[], u⟩⟩)
      (some ⟨.failure m1, .failure m2⟩) o2.now o2.webhook = (.ok (), 0) := by
    unfold sendComprehensive2
    rw [hb2]
    rfl
  refine ⟨rfl, hb2, hsend1, ?_, ?_⟩
  · unfold handler1
    rw [if_neg hpass]
    unfold afterAuth1
    rw [hcfg]
    simp only [Bool.false_eq_true, if_false]
    unfold pipeline1
    rw [hf1, hf2]
    dsimp only
    rw [hana, hana]
    dsimp only
    rw [hcal, htr1, hsend1]
    dsimp only
    rw [hcal2, htr1c]
  · unfold handler2
    rw [if_neg hpass]
    unfold afterAuth2
    rw [hcfg]
    simp only [Bool.false_eq_true, if_false]
    unfold pipeline2
    rw [hg1, hg2]
    dsimp only
    rw [hcombo]
    dsimp only
    rw [htr2, heth, hbtc, hsend2]
    dsimp only
    rw [hcombo2, htr2c, heth2, hbtc2]

/-- C10 witness: a concrete all-empty run of both handlers. -/
theorem c10_witness :
    handler1 ⟨some (lit "s"), none⟩ ⟨some (lit "s"), some (lit "k"), some (lit "u")⟩
      ⟨fun _ => .ok [], fun _ => .ok (.arr []), fun _ => .ok ⟨none, none⟩⟩
      ⟨.ok ⟨true, 200, [], .ok ⟨lit "ok", none, []⟩⟩,
       .ok ⟨true, 200, [], .ok ⟨lit "ok", none, []⟩⟩,
       .ok (lit "[]"), .ok (lit "{}"), .ok (lit "[]"), .ok (lit "[]"),
       .ok ⟨true, .ok []⟩, []⟩ =
      ⟨200, .success (lit "Scheduled push completed successfully."), 2, 0⟩ ∧
    handler2 ⟨some (lit "s"), none⟩ ⟨some (lit "s"), some (lit "k"), some (lit "u")⟩
      ⟨fun _ => .ok ⟨[], [], .arr []⟩, fun _ => .error .value, fun _ => .error .value⟩
      ⟨.ok ⟨true, 200, [], .ok ⟨lit "ok", none, []⟩⟩,
       .ok ⟨true, 200, [], .ok ⟨lit "ok", none, []⟩⟩,
       .ok (lit "{}"), .error .value, .error .value, .error .value,
       .ok ⟨true, .ok []⟩, []⟩ =
      ⟨200, .success (lit "Scheduled evening push completed successfully."), 4, 0⟩ :=
  ⟨(c10_empty_digest_success ⟨some (lit "s"), none⟩
      ⟨some (lit "s"), some (lit "k"), some (lit "u")⟩
      ⟨fun _ => .ok [], fun _ => .ok (.arr []), fun _ => .ok ⟨none, none⟩⟩
      ⟨.ok ⟨true, 200, [], .ok ⟨lit "ok", none, []⟩⟩,
       .ok ⟨true, 200, [], .ok ⟨lit "ok", none, []⟩⟩,
       .ok (lit "[]"), .ok (lit "{}"), .ok (lit "[]"), .ok (lit "[]"),
       .ok ⟨true, .ok []⟩, []⟩
      ⟨fun _ => .ok ⟨[], [], .arr []⟩, fun _ => .error .value, fun _ => .error .value⟩
      ⟨.ok ⟨true, 200, [], .ok ⟨lit "ok", none, []⟩⟩,
       .ok ⟨true, 200, [], .ok ⟨lit "ok", none, []⟩⟩,
       .ok (lit "{}"), .error .value, .error .value, .error .value,
       .ok ⟨true, .ok []⟩, []⟩
      [] [] [] (pushCryptoMsg (lit "ETH")) (pushCryptoMsg (lit "BTC"))
      rfl rfl rfl rfl rfl rfl rfl rfl rfl rfl rfl rfl rfl).2.2.2.1,
   (c10_empty_digest_success ⟨some (lit "s"), none⟩
      ⟨some (lit "s"), some (lit "k"), some (lit "u")⟩
      ⟨fun _ => .ok [], fun _ => .ok (.arr []), fun _ => .ok ⟨none, none⟩⟩
      ⟨.ok ⟨true, 200, [], .ok ⟨lit "ok", none, []⟩⟩,
       .ok ⟨true, 200, [], .ok ⟨lit "ok", none, []⟩⟩,
       .ok (lit "[]"), .ok (lit "{}"), .ok (lit "[]"), .ok (lit "[]"),
       .ok ⟨true, .ok []⟩, []⟩
      ⟨fun _ => .ok ⟨[], [], .arr []⟩, fun _ => .error .value, fun _ => .error .value⟩
      ⟨.ok ⟨true, 200, [], .ok ⟨lit "ok", none, []⟩⟩,
       .ok ⟨true, 200, [], .ok ⟨lit "ok", none, []⟩⟩,
       .ok (lit "{}"), .error .value, .error .value, .error .value,
       .ok ⟨true, .ok []⟩, []⟩
      [] [] [] (pushCryptoMsg (lit "ETH")) (pushCryptoMsg (lit "BTC"))
      rfl rfl rfl rfl rfl rfl rfl rfl rfl rfl rfl rfl rfl).2.2.2.2⟩

end AiFin
















